import Mathlib

/-!
# MyChat — verification of the chat-parsing and analytics layer

Shallow embedding of the MyChat source (WhatsApp/Telegram/CSV parsers and the
analytics engine) into Lean 4, together with proofs of the specified
properties.

Modelling conventions:
* JS `Date` values are modelled as `Int` milliseconds since the Unix epoch;
  the host's local time zone is modelled as UTC (a fixed-offset model), so
  `new Date(y, m, d, hh, mm, ss)` is pure civil-calendar arithmetic.
* JS strings are Lean `String`s; the handful of string operations the source
  uses (`trim`, `toLowerCase`, `split`, `includes`, regex matching) are
  implemented character-exactly for ASCII below.
* JS objects used as string-keyed dictionaries are modelled as functions or
  as first-seen-deduplicated lists (`Set` insertion order).
* JS `Array.prototype.sort` is required by ECMAScript 2019+ to be stable; it
  is modelled by `List.mergeSort`, which is stable.
* Fractional arithmetic (`/ (1000*60)`, averages, `Math.round(x*10)/10`) is
  modelled with `ℚ`.  A JS division `0/0` produces `NaN`; fields where the
  source can produce `NaN` are modelled as `Option ℚ` with `none` for `NaN`.
-/

namespace MyChat

/-- Canonical message record produced by every parser:
`{ timestamp, sender, text }` with the timestamp in ms since the epoch. -/
structure Message where
  timestamp : Int
  sender : String
  text : String
deriving Repr, DecidableEq

/-! ## JS primitive helpers -/

/-- The ASCII whitespace characters recognised by JS `\s`, `trim()` and
`split(/\s+/)` (the Unicode spaces are irrelevant to the repository's data). -/
def isWsChar (c : Char) : Bool :=
  c = ' ' || c = '\t' || c = '\n' || c = '\r' || c = '\x0b' || c = '\x0c'

/-- ASCII lower-casing, modelling `String.prototype.toLowerCase` on the
ASCII range (non-ASCII characters pass through unchanged). -/
def toLowerChar (c : Char) : Char :=
  if 'A' ≤ c && c ≤ 'Z' then Char.ofNat (c.toNat + 32) else c

def lowerChars (cs : List Char) : List Char := cs.map toLowerChar

/-- JS `String.prototype.trim`. -/
def jsTrimChars (cs : List Char) : List Char :=
  ((cs.dropWhile isWsChar).reverse.dropWhile isWsChar).reverse

def jsTrim (s : String) : String := ⟨jsTrimChars s.data⟩

/-- JS `str.split(sep)` for a single-character separator. -/
def jsSplitChar (sep : Char) : List Char → List (List Char)
  | [] => [[]]
  | c :: cs =>
    let rest := jsSplitChar sep cs
    if c = sep then [] :: rest
    else match rest with
      | [] => [[c]]
      | r :: rs => (c :: r) :: rs

/-- JS `str.toLowerCase().includes(pat)`-style infix test on char lists. -/
def containsSub : List Char → List Char → Bool
  | [], pat => pat.isEmpty
  | c :: t, pat => pat.isPrefixOf (c :: t) || containsSub t pat

def isDigitChar (c : Char) : Bool := '0' ≤ c && c ≤ '9'

def digitVal (c : Char) : Int := Int.ofNat (c.toNat - '0'.toNat)

def digitsToInt (cs : List Char) : Int :=
  cs.foldl (fun acc c => acc * 10 + digitVal c) 0

/-- JS `parseInt(str)`: skip leading whitespace, optional sign, then the
maximal digit prefix; `none` models `NaN` (no digits). -/
def parseIntPrefix (cs : List Char) : Option Int :=
  let cs := cs.dropWhile isWsChar
  match cs with
  | '-' :: rest =>
    let ds := rest.takeWhile isDigitChar
    if ds = [] then none else some (-(digitsToInt ds))
  | '+' :: rest =>
    let ds := rest.takeWhile isDigitChar
    if ds = [] then none else some (digitsToInt ds)
  | _ =>
    let ds := cs.takeWhile isDigitChar
    if ds = [] then none else some (digitsToInt ds)

/-- JS `Math.round` on an exact rational: round half toward `+∞`. -/
def jsRound (q : ℚ) : Int := ⌊q + 1 / 2⌋

/-! ## Civil-calendar arithmetic (the `Date` model)

`new Date(year, monthIndex, day, h, m, s)` normalises out-of-range
components by carrying, exactly like integer arithmetic on a proleptic
Gregorian calendar at UTC.  `daysFromCivil`/`civilFromDays` are the
standard Gregorian day-count conversions. -/

/-- Days since 1970-01-01 of the civil date `y-m-d` (`m ∈ [1,12]`). -/
def daysFromCivil (y m d : Int) : Int :=
  let y' := if m ≤ 2 then y - 1 else y
  let era := y'.fdiv 400
  let yoe := y' - era * 400
  let mp := (m + 9) % 12
  let doy := (153 * mp + 2).fdiv 5 + d - 1
  let doe := yoe * 365 + yoe.fdiv 4 - yoe.fdiv 100 + doy
  era * 146097 + doe - 719468

/-- Civil date `(year, month, day)` of a day count since 1970-01-01. -/
def civilFromDays (z0 : Int) : Int × Int × Int :=
  let z := z0 + 719468
  let era := z.fdiv 146097
  let doe := z - era * 146097
  let yoe := (doe - doe.fdiv 1460 + doe.fdiv 36524 - doe.fdiv 146096).fdiv 365
  let y := yoe + era * 400
  let doy := doe - (365 * yoe + yoe.fdiv 4 - yoe.fdiv 100)
  let mp := (5 * doy + 2).fdiv 153
  let d := doy - (153 * mp + 2).fdiv 5 + 1
  let m := mp + (if mp < 10 then 3 else -9)
  (if m ≤ 2 then y + 1 else y, m, d)

/-- `new Date(year, monthIndex, day, hours, minutes, seconds).getTime()`:
months are 0-based and every component may be out of range (JS carries). -/
def jsDateMs (year monthIndex day hours minutes seconds : Int) : Int :=
  let tm := year * 12 + monthIndex
  let y := tm.fdiv 12
  let m := tm.emod 12 + 1
  let days := daysFromCivil y m 1 + (day - 1)
  (((days * 24 + hours) * 60 + minutes) * 60 + seconds) * 1000

/-- The calendar day (days since epoch) containing a timestamp; this is the
day part of `Date.prototype.toISOString` / a local midnight in the model. -/
def dayOfTs (ts : Int) : Int := ts.fdiv 86400000

/-- `Date.prototype.getDay` (0 = Sunday); the epoch was a Thursday. -/
def jsGetDay (dayNumber : Int) : Int := (dayNumber + 4).emod 7

/-! ## `[...new Set(xs)]`: first-seen deduplication -/

/-- JS `Set` insertion order: keep the first occurrence of each element. -/
def dedupFirstSeen {α : Type} [DecidableEq α] (l : List α) : List α :=
  l.foldl (fun acc s => if s ∈ acc then acc else acc ++ [s]) []

/-- `Math.min(...xs)` over a non-empty list (0 as a dummy for `[]`). -/
def listMinInt : List Int → Int
  | [] => 0
  | x :: xs => xs.foldl min x

/-- `Math.max(...xs)` over a non-empty list (0 as a dummy for `[]`). -/
def listMaxInt : List Int → Int
  | [] => 0
  | x :: xs => xs.foldl max x

/-- `Math.max(...xs)` over a non-empty list of naturals. -/
def listMaxNat : List Nat → Nat
  | [] => 0
  | x :: xs => xs.foldl max x

/-! ## WhatsApp parser (`parseWhatsApp`)

The three date-line regular expressions are implemented character-exactly.
In each of them every bounded digit repetition (`\d{1,2}`, `\d{2,4}`, …) is
followed by a token that never matches a digit, so the regex's greedy
backtracking coincides with taking the maximal digit run and checking its
length; the one place where backtracking is observable — the greedy `\s*`
before `([^:]+):` handing a whitespace character back when the colon comes
right after the whitespace — is implemented explicitly. -/

/-- Greedy digit run whose length must lie in `[lo, hi]`. -/
def takeDigitsRange (lo hi : Nat) (cs : List Char) : Option (List Char × List Char) :=
  let ds := cs.takeWhile isDigitChar
  if lo ≤ ds.length ∧ ds.length ≤ hi then some (ds, cs.drop ds.length) else none

def expectChar (c : Char) : List Char → Option (List Char)
  | x :: rest => if x = c then some rest else none
  | [] => none

/-- `[-–]`: ASCII hyphen or en-dash. -/
def expectDashSep : List Char → Option (List Char)
  | x :: rest => if x = '-' ∨ x = '–' then some rest else none
  | [] => none

def dropWs (cs : List Char) : List Char := cs.dropWhile isWsChar

/-- `\s+`. -/
def ws1 (cs : List Char) : Option (List Char) :=
  let ws := cs.takeWhile isWsChar
  if ws = [] then none else some (cs.drop ws.length)

/-- `\d{1,2}X\d{1,2}X\d{2,4}` for a separator `X`; returns the matched text. -/
def matchSepDate (sep : Char) (cs : List Char) : Option (List Char × List Char) := do
  let (d1, r1) ← takeDigitsRange 1 2 cs
  let r2 ← expectChar sep r1
  let (d2, r3) ← takeDigitsRange 1 2 r2
  let r4 ← expectChar sep r3
  let (d3, r5) ← takeDigitsRange 2 4 r4
  some (d1 ++ sep :: d2 ++ sep :: d3, r5)

/-- `\d{1,2}[:.]\d{2}(?:[:.]\d{2})?(?:\s*[AP]M)?` (the AM/PM part only when
`allowAmPm`, matching case-insensitively); returns the matched text. -/
def matchTime (allowAmPm : Bool) (cs : List Char) : Option (List Char × List Char) := do
  let (h, r1) ← takeDigitsRange 1 2 cs
  match r1 with
  | [] => none
  | c :: r2 =>
    if c = ':' ∨ c = '.' then do
      let (mins, r3) ← takeDigitsRange 2 2 r2
      let (sec, r4) :=
        match r3 with
        | c' :: rest =>
          if c' = ':' ∨ c' = '.' then
            match takeDigitsRange 2 2 rest with
            | some (ds, r') => (c' :: ds, r')
            | none => (([] : List Char), r3)
          else ([], r3)
        | [] => ([], r3)
      let (ampm, r5) :=
        if allowAmPm then
          let ws := r4.takeWhile isWsChar
          match r4.drop ws.length with
          | a :: m :: rest =>
            if (a = 'A' ∨ a = 'a' ∨ a = 'P' ∨ a = 'p') ∧ (m = 'M' ∨ m = 'm') then
              (ws ++ [a, m], rest)
            else (([] : List Char), r4)
          | _ => ([], r4)
        else ([], r4)
      some (h ++ c :: mins ++ sec ++ ampm, r5)
    else none

/-- `\s*([^:]+):` with the regex's backtracking: when the character after the
greedy whitespace run is already `:`, `\s*` hands its last character back to
`[^:]+`, so the captured sender is that single whitespace character. -/
def matchSenderColon (cs : List Char) : Option (List Char × List Char) :=
  let ws := cs.takeWhile isWsChar
  let rest := cs.drop ws.length
  match rest with
  | ':' :: r =>
    match ws.getLast? with
    | some w => some ([w], r)
    | none => none
  | _ =>
    let sender := rest.takeWhile (fun c => c ≠ ':')
    if sender = [] then none
    else match rest.drop sender.length with
      | ':' :: r => some (sender, r)
      | _ => none

/-- `\s*(.*)$`: `.` does not match a line terminator, so a line-terminator
character remaining after the whitespace makes the pattern fail. -/
def matchTextEnd (cs : List Char) : Option (List Char) :=
  let t := dropWs cs
  if t.contains '\r' ∨ t.contains '\n' then none else some t

/-- A successful match of one of the WhatsApp date-line patterns:
the four capture groups. -/
structure WAMatch where
  dateStr : String
  timeStr : String
  sender : String
  text : String
deriving Repr, DecidableEq

/-- `^(\d{1,2}\/\d{1,2}\/\d{2,4}),?\s+(time)\s*[-–]\s*([^:]+):\s*(.*)$`. -/
def matchPattern1 (cs : List Char) : Option WAMatch := do
  let (date, r1) ← matchSepDate '/' cs
  let r2 := match r1 with | ',' :: r => r | _ => r1
  let r3 ← ws1 r2
  let (time, r4) ← matchTime true r3
  let r5 ← expectDashSep (dropWs r4)
  let (sender, r6) ← matchSenderColon r5
  let text ← matchTextEnd r6
  some ⟨⟨date⟩, ⟨time⟩, ⟨sender⟩, ⟨text⟩⟩

/-- `^\[(\d{1,2}\/\d{1,2}\/\d{2,4}),?\s+(time)\]\s*([^:]+):\s*(.*)$`. -/
def matchPattern2 (cs : List Char) : Option WAMatch := do
  let r0 ← expectChar '[' cs
  let (date, r1) ← matchSepDate '/' r0
  let r2 := match r1 with | ',' :: r => r | _ => r1
  let r3 ← ws1 r2
  let (time, r4) ← matchTime true r3
  let r5 ← expectChar ']' r4
  let (sender, r6) ← matchSenderColon r5
  let text ← matchTextEnd r6
  some ⟨⟨date⟩, ⟨time⟩, ⟨sender⟩, ⟨text⟩⟩

/-- `^(\d{1,2}-\d{1,2}-\d{2,4})\s+(\d{1,2}[:.]\d{2}(?:[:.]\d{2})?)\s*[-–]\s*([^:]+):\s*(.*)$`. -/
def matchPattern3 (cs : List Char) : Option WAMatch := do
  let (date, r1) ← matchSepDate '-' cs
  let r2 ← ws1 r1
  let (time, r3) ← matchTime false r2
  let r4 ← expectDashSep (dropWs r3)
  let (sender, r5) ← matchSenderColon r4
  let text ← matchTextEnd r5
  some ⟨⟨date⟩, ⟨time⟩, ⟨sender⟩, ⟨text⟩⟩

/-- The ordered pattern list of `parseWhatsApp`: first match wins. -/
def matchLine (cs : List Char) : Option WAMatch :=
  (matchPattern1 cs).orElse fun _ =>
    (matchPattern2 cs).orElse fun _ => matchPattern3 cs

/-- JS `parseInt` result used in a `< 50` comparison: `NaN < 50` is `false`. -/
def parseIntLt50 (cs : List Char) : Bool :=
  match parseIntPrefix cs with
  | some n => n < 50
  | none => false

/-- `parseDateTime(dateStr, timeStr)` from the WhatsApp parser.  The `NaN`
corners of `parseInt` are unreachable from `parseWhatsApp` (the capture
groups are all-digit); they are modelled as 0. -/
def parseDateTime (dateStr timeStr : String) : Int :=
  let normalizedDate := dateStr.data.map fun c => if c = '-' then '/' else c
  let parts := (jsSplitChar '/' normalizedDate).map fun cs => String.mk cs
  let p0 := parts.getD 0 ""
  let p1 := parts.getD 1 ""
  let p2 := parts.getD 2 ""
  let (year, month, day) :=
    if p0.length = 4 then (p0, p1, p2)
    else if p2 ≠ "" ∧ p2.length = 4 then (p2, p0, p1)
    else ((if parseIntLt50 p2.data then "20" ++ p2 else "19" ++ p2), p0, p1)
  let timeChars := timeStr.data.map fun c => if c = ':' ∨ c = '.' then ':' else c
  let timeParts := (jsSplitChar ':' timeChars).map fun cs => String.mk cs
  let hours0 := (parseIntPrefix (timeParts.getD 0 "").data).getD 0
  let minutes := (parseIntPrefix (timeParts.getD 1 "").data).getD 0
  let seconds :=
    match timeParts.getD 2 "" with
    | "" => 0
    | t => (parseIntPrefix t.data).getD 0
  let isPM := containsSub (lowerChars timeStr.data) ['p', 'm']
  let isAM := containsSub (lowerChars timeStr.data) ['a', 'm']
  let hours1 := if isPM ∧ hours0 < 12 then hours0 + 12 else hours0
  let hours := if isAM ∧ hours1 = 12 then 0 else hours1
  jsDateMs ((parseIntPrefix year.data).getD 0) ((parseIntPrefix month.data).getD 0 - 1)
    ((parseIntPrefix day.data).getD 0) hours minutes seconds

/-- The system-message indicator list of the WhatsApp parser. -/
def systemIndicators : List String :=
  ["created group", "added you", "changed the subject", "changed this group",
   "left the group", "removed", "security code changed",
   "messages and calls are end-to-end encrypted", "you deleted this message",
   "this message was deleted", "media omitted", "<Media omitted>",
   "missed voice call", "missed video call", "joined using this group"]

/-- `isSystemMessage(sender, text)`. -/
def isSystemMessage (sender text : String) : Bool :=
  let lowerText := lowerChars text.data
  let lowerSender := lowerChars sender.data
  if containsSub lowerSender ['s', 'y', 's', 't', 'e', 'm'] || lowerSender.isEmpty then
    true
  else
    systemIndicators.any fun ind => containsSub lowerText (lowerChars ind.data)

/-- The loop state of `parseWhatsApp`: the accumulated messages and the
message currently being assembled (continuation lines append to it). -/
structure WAState where
  messages : List Message
  current : Option Message
deriving Repr, DecidableEq

/-- One iteration of the `for (const line of lines)` loop of `parseWhatsApp`. -/
def waStep (st : WAState) (line : String) : WAState :=
  let trimmedLine := jsTrim line
  if trimmedLine = "" then st
  else
    match matchLine trimmedLine.data with
    | some m =>
      let msgs :=
        match st.current with
        | some cur => st.messages ++ [cur]
        | none => st.messages
      let timestamp := parseDateTime m.dateStr m.timeStr
      if isSystemMessage m.sender m.text then ⟨msgs, none⟩
      else ⟨msgs, some ⟨timestamp, jsTrim m.sender, jsTrim m.text⟩⟩
    | none =>
      match st.current with
      | some cur => ⟨st.messages, some { cur with text := cur.text ++ "\n" ++ trimmedLine }⟩
      | none => st

/-- The messages of `parseWhatsApp` in parse order (before the final sort):
the line loop plus the final `if (currentMessage) messages.push(...)`. -/
def waExtract (content : String) : List Message :=
  let lines := (jsSplitChar '\n' content.data).map fun cs => String.mk cs
  let st := lines.foldl waStep ⟨[], none⟩
  match st.current with
  | some m => st.messages ++ [m]
  | none => st.messages

/-- The stable-sort comparator `(a, b) => a.timestamp - b.timestamp`. -/
def tsLEb (a b : Message) : Bool := a.timestamp ≤ b.timestamp

/-- Metadata shared by the WhatsApp and CSV parsers. -/
structure ChatMetadata where
  totalMessages : Nat
  participants : List String
  dateRangeStart : Int
  dateRangeEnd : Int
deriving Repr, DecidableEq

/-- `ParsedResult` of the WhatsApp and CSV parsers. -/
structure WAResult where
  messages : List Message
  metadata : ChatMetadata
deriving Repr, DecidableEq

def waNoMessagesError : String :=
  "No valid messages found in WhatsApp export. Please check the file format."

/-- `parseWhatsApp(content)`: extract, fail on zero messages, then sort by
timestamp (stably) and build the metadata. -/
def parseWhatsApp (content : String) : Except String WAResult :=
  let msgs := waExtract content
  if msgs = [] then .error waNoMessagesError
  else
    let sorted := msgs.mergeSort tsLEb
    .ok ⟨sorted,
      ⟨sorted.length, dedupFirstSeen (sorted.map (·.sender)),
        listMinInt (sorted.map (·.timestamp)), listMaxInt (sorted.map (·.timestamp))⟩⟩

/-! ## Telegram parser (`parseTelegramExport`)

The DOM produced by the host's `DOMParser` is modelled structurally: a
`TgDoc` records exactly the query results the parser reads (the header
text, the children of the `.history` container, and the `<div>` views used
by the degraded fallback).  Timestamps are kept as `Int` milliseconds (the
source stores `Date.prototype.toISOString()` strings and converts back with
`new Date(...)` when sorting, a round-trip). -/

/-- Midnight (`setHours(0,0,0,0)`) of the day containing a timestamp. -/
def midnightOf (ts : Int) : Int := dayOfTs ts * 86400000

/-- Scan step for the unanchored regex `/(\d{1,2}):(\d{2})/`: try to match at
the head of the list. -/
def tryTimeAt (cs : List Char) : Option (Int × Int) :=
  let ds := cs.takeWhile isDigitChar
  if 1 ≤ ds.length ∧ ds.length ≤ 2 then
    match cs.drop ds.length with
    | ':' :: m1 :: m2 :: _ =>
      if isDigitChar m1 ∧ isDigitChar m2 then
        some (digitsToInt ds, digitsToInt [m1, m2])
      else none
    | _ => none
  else none

/-- `text.match(/(\d{1,2}):(\d{2})/)`: first match position wins. -/
def findTimeMatch : List Char → Option (Int × Int)
  | [] => none
  | c :: rest => (tryTimeAt (c :: rest)).orElse fun _ => findTimeMatch rest

def isWordChar (c : Char) : Bool :=
  ('a' ≤ c && c ≤ 'z') || ('A' ≤ c && c ≤ 'Z') || isDigitChar c || c = '_'

/-- Scan step for `/(\d{1,2})\s+(\w+)\s+(\d{4})/` at the head of the list. -/
def tryDateTextAt (cs : List Char) : Option (Int × String × Int) := do
  let ds := cs.takeWhile isDigitChar
  if 1 ≤ ds.length ∧ ds.length ≤ 2 then do
    let r1 ← ws1 (cs.drop ds.length)
    let w := r1.takeWhile isWordChar
    if w = [] then none
    else do
      let r2 ← ws1 (r1.drop w.length)
      let ys := r2.takeWhile isDigitChar
      if 4 ≤ ys.length then some (digitsToInt ds, ⟨w⟩, digitsToInt (ys.take 4))
      else none
  else none

/-- `text.match(/(\d{1,2})\s+(\w+)\s+(\d{4})/)`. -/
def findDateTextMatch : List Char → Option (Int × String × Int)
  | [] => none
  | c :: rest => (tryDateTextAt (c :: rest)).orElse fun _ => findDateTextMatch rest

/-- The month table of `parseDateFromText` (note: no `januari` entry). -/
def monthsServiceTable : List (String × Int) :=
  [("january", 0), ("jan", 0),
   ("february", 1), ("feb", 1), ("februari", 1),
   ("march", 2), ("mar", 2), ("maret", 2),
   ("april", 3), ("apr", 3),
   ("may", 4), ("mei", 4),
   ("june", 5), ("jun", 5), ("juni", 5),
   ("july", 6), ("jul", 6), ("juli", 6),
   ("august", 7), ("aug", 7), ("agustus", 7),
   ("september", 8), ("sep", 8), ("sept", 8),
   ("october", 9), ("oct", 9), ("oktober", 9),
   ("november", 10), ("nov", 10),
   ("december", 11), ("dec", 11), ("desember", 11)]

/-- The month table of `getMonthNumber` (this one has `januari`). -/
def monthsFullTable : List (String × Int) :=
  ("januari", 0) :: monthsServiceTable

def lookupMonth (table : List (String × Int)) (monthStr : String) : Option Int :=
  (table.find? fun p => p.1 = String.mk (lowerChars monthStr.data)).map (·.2)

/-- `parseDateFromText(text)`: first `/(\d{1,2})\s+(\w+)\s+(\d{4})/` match,
month resolved through `monthsServiceTable`; returns a midnight timestamp. -/
def parseDateFromText (text : String) : Option Int :=
  match findDateTextMatch text.data with
  | some (day, monthStr, year) =>
    match lookupMonth monthsServiceTable monthStr with
    | some month => some (jsDateMs year month day 0 0 0)
    | none => none
  | none => none

def getMonthNumber (monthStr : String) : Option Int :=
  lookupMonth monthsFullTable monthStr

/-- Modelled host behaviour (`new Date(string)`): the ECMAScript-guaranteed
ISO 8601 forms `YYYY-MM-DD` and `YYYY-MM-DD[T ]HH:MM[:SS]`; every other
string is an invalid date (`none`). -/
def nativeDateParse (s : String) : Option Int :=
  match s.data with
  | y1 :: y2 :: y3 :: y4 :: '-' :: m1 :: m2 :: '-' :: d1 :: d2 :: rest =>
    if [y1, y2, y3, y4, m1, m2, d1, d2].all isDigitChar then
      let date := fun h mi sec =>
        jsDateMs (digitsToInt [y1, y2, y3, y4]) (digitsToInt [m1, m2] - 1)
          (digitsToInt [d1, d2]) h mi sec
      match rest with
      | [] => some (date 0 0 0)
      | sep :: h1 :: h2 :: ':' :: mi1 :: mi2 :: rest2 =>
        if (sep = 'T' ∨ sep = ' ') ∧ [h1, h2, mi1, mi2].all isDigitChar then
          match rest2 with
          | [] => some (date (digitsToInt [h1, h2]) (digitsToInt [mi1, mi2]) 0)
          | ':' :: s1 :: s2 :: [] =>
            if [s1, s2].all isDigitChar then
              some (date (digitsToInt [h1, h2]) (digitsToInt [mi1, mi2]) (digitsToInt [s1, s2]))
            else none
          | _ => none
        else none
      | _ => none
    else none
  | _ => none

/-- `:?(\d{2})?` after the minutes of the dot format (seconds default 0). -/
def parseOptSeconds (cs : List Char) : Int :=
  let two : List Char → Int := fun r =>
    match r with
    | a :: b :: _ => if isDigitChar a ∧ isDigitChar b then digitsToInt [a, b] else 0
    | _ => 0
  match cs with
  | ':' :: r => two r
  | r => two r

/-- Scan step for `/(\d{2})\.(\d{2})\.(\d{4})\s+(\d{2}):(\d{2}):?(\d{2})?/`. -/
def tryDotAt (cs : List Char) : Option Int := do
  match cs with
  | d1 :: d2 :: '.' :: m1 :: m2 :: '.' :: y1 :: y2 :: y3 :: y4 :: rest =>
    if [d1, d2, m1, m2, y1, y2, y3, y4].all isDigitChar then do
      let r1 ← ws1 rest
      match r1 with
      | h1 :: h2 :: ':' :: mi1 :: mi2 :: rest2 =>
        if [h1, h2, mi1, mi2].all isDigitChar then
          some (jsDateMs (digitsToInt [y1, y2, y3, y4]) (digitsToInt [m1, m2] - 1)
            (digitsToInt [d1, d2]) (digitsToInt [h1, h2]) (digitsToInt [mi1, mi2])
            (parseOptSeconds rest2))
        else none
      | _ => none
    else none
  | _ => none

def findDotMatch : List Char → Option Int
  | [] => none
  | c :: rest => (tryDotAt (c :: rest)).orElse fun _ => findDotMatch rest

/-- Scan step for `/(\d{1,2})\s+(\w+)\s+(\d{4})\s+(\d{2}):(\d{2})/`; the
month word is returned for the `getMonthNumber` lookup. -/
def tryTextMonthAt (cs : List Char) : Option (Int × String × Int × Int × Int) := do
  let ds := cs.takeWhile isDigitChar
  if 1 ≤ ds.length ∧ ds.length ≤ 2 then do
    let r1 ← ws1 (cs.drop ds.length)
    let w := r1.takeWhile isWordChar
    if w = [] then none
    else do
      let r2 ← ws1 (r1.drop w.length)
      let ys := r2.takeWhile isDigitChar
      if ys.length = 4 then do
        let r3 ← ws1 (r2.drop 4)
        match r3 with
        | h1 :: h2 :: ':' :: mi1 :: mi2 :: _ =>
          if [h1, h2, mi1, mi2].all isDigitChar then
            some (digitsToInt ds, ⟨w⟩, digitsToInt ys,
              digitsToInt [h1, h2], digitsToInt [mi1, mi2])
          else none
        | _ => none
      else none
  else none

def findTextMonthMatch : List Char → Option (Int × String × Int × Int × Int)
  | [] => none
  | c :: rest => (tryTextMonthAt (c :: rest)).orElse fun _ => findTextMonthMatch rest

/-- `parseFullDateTime(dateStr)`: native parse, then the `DD.MM.YYYY
HH:mm[:ss]` format, then the `DD Month YYYY HH:mm` format. -/
def parseFullDateTime (dateStr : String) : Option Int :=
  match nativeDateParse dateStr with
  | some d => some d
  | none =>
    match findDotMatch dateStr.data with
    | some d => some d
    | none =>
      match findTextMonthMatch dateStr.data with
      | some (day, monthStr, year, hour, minute) =>
        match getMonthNumber monthStr with
        | some m => some (jsDateMs year m day hour minute 0)
        | none => none
      | none => none

/-- The element found by `el.querySelector('.pull_right.date, .date,
[title]')`: its `title` attribute (if any) and its text content. -/
structure TgDateEl where
  title : Option String
  timeText : String
deriving Repr, DecidableEq

/-- One direct child of the `.history` container, seen through the queries
the parser makes: a `.service` block carries its `.body` text; a
`.message.default` block carries its `.from_name`, `.text`,
`.media .title / .media .description` texts and its date element; anything
else is skipped by the loop. -/
inductive TgBlock where
  | service (bodyText : Option String)
  | message (fromName : Option String) (textContent : Option String)
      (mediaText : Option String) (dateEl : Option TgDateEl)
  | other
deriving Repr, DecidableEq

/-- The message record built by `parseDefaultMessage` (it carries the extra
`extractedDate` field along into the result array). -/
structure TgMessage where
  timestamp : Int
  sender : String
  text : String
  extractedDate : Option Int
deriving Repr, DecidableEq

/-- `parseDefaultMessage(el, currentDate, lastSender)`. -/
def parseDefaultMessage (fromName textContent mediaText : Option String)
    (dateEl : Option TgDateEl) (currentDate : Int) (lastSender : Option String) :
    Option TgMessage :=
  let sender0 : Option String :=
    match fromName with
    | some s => some (jsTrim s)
    | none => lastSender
  let sender1 : Option String :=
    match sender0 with
    | some s =>
      if s ≠ "" then some (jsTrim ⟨(jsSplitChar '\n' s.data).headD []⟩) else some s
    | none => none
  match sender1 with
  | none => none
  | some sender =>
    if sender = "" then none
    else
      let text0 := (textContent.map jsTrim).getD ""
      let text :=
        if text0 = "" then
          match mediaText with
          | some mt => "[Media: " ++ jsTrim mt ++ "]"
          | none => "[Media]"
        else text0
      let (timestamp, extractedDate) :=
        match dateEl with
        | none => (currentDate, none)
        | some de =>
          if (de.title.getD "") ≠ "" then
            match parseFullDateTime (de.title.getD "") with
            | some parsed => (parsed, some (midnightOf parsed))
            | none => (currentDate, none)
          else
            match findTimeMatch (jsTrim de.timeText).data with
            | some (h, m) => (midnightOf currentDate + h * 3600000 + m * 60000, none)
            | none => (currentDate, none)
      some ⟨timestamp, sender, text, extractedDate⟩

/-- The loop state of `parseTelegramExport`. -/
structure TgState where
  messages : List TgMessage
  participants : List String
  currentDate : Int
  lastSender : Option String
deriving Repr, DecidableEq

/-- One iteration of the loop over the `.history` children. -/
def tgStep (st : TgState) (b : TgBlock) : TgState :=
  match b with
  | .service bodyText =>
    let body := (bodyText.map jsTrim).getD ""
    match parseDateFromText body with
    | some d => { st with currentDate := d }
    | none => st
  | .message fromName textContent mediaText dateEl =>
    match parseDefaultMessage fromName textContent mediaText dateEl
        st.currentDate st.lastSender with
    | some msg =>
      { messages := st.messages ++ [msg]
        participants :=
          if msg.sender ∈ st.participants then st.participants
          else st.participants ++ [msg.sender]
        currentDate := msg.extractedDate.getD st.currentDate
        lastSender := some msg.sender }
    | none => st
  | .other => st

/-- Metadata of a Telegram parse (the fallback path builds no `chatName`
field, hence the `Option`). -/
structure TgMetadata where
  format : String
  totalMessages : Nat
  participants : List String
  chatName : Option String
  dateRangeStart : Option Int
  dateRangeEnd : Option Int
deriving Repr, DecidableEq

structure TgResult where
  messages : List TgMessage
  metadata : TgMetadata
deriving Repr, DecidableEq

/-- A `<div>` as seen by `parseAlternativeFormat`: its text content and its
`.from_name` / `.text` descendants. -/
structure TgDiv where
  textContent : String
  fromName : Option String
  textEl : Option String
deriving Repr, DecidableEq

/-- The document model: exactly the query results `parseTelegramExport`
reads.  `history = none` models a document without a `.history` container,
which sends the parser down the degraded fallback path. -/
structure TgDoc where
  headerText : Option String
  history : Option (List TgBlock)
  divs : List TgDiv
deriving Repr, DecidableEq

def tgTsLEb (a b : TgMessage) : Bool := a.timestamp ≤ b.timestamp

/-- `parseAlternativeFormat(doc)` — the degraded fallback.  `now` models the
initial `let currentDate = new Date()`.  Note: no final sort here. -/
def parseAlternativeFormat (now : Int) (doc : TgDoc) : TgResult :=
  let step := fun (st : List TgMessage × List String × Int) (div : TgDiv) =>
    let text := jsTrim div.textContent
    match parseDateFromText text with
    | some d =>
      if text.length < 30 then (st.1, st.2.1, d)
      else stepMessages st div
    | none => stepMessages st div
  let st := doc.divs.foldl step ([], [], now)
  let messages := st.1
  { messages := messages
    metadata :=
      { format := "telegram"
        totalMessages := messages.length
        participants := st.2.1
        chatName := none
        dateRangeStart := (messages.head?).map (·.timestamp)
        dateRangeEnd := (messages.getLast?).map (·.timestamp) } }
where
  /-- The message half of the fallback loop body. -/
  stepMessages (st : List TgMessage × List String × Int) (div : TgDiv) :
      List TgMessage × List String × Int :=
    match div.fromName, div.textEl with
    | some fn, some te =>
      let sender : String := ⟨(jsSplitChar '\n' (jsTrim fn).data).headD []⟩
      let msgText := jsTrim te
      if sender ≠ "" ∧ msgText ≠ "" then
        (st.1 ++ [⟨st.2.2, sender, msgText, none⟩],
         (if sender ∈ st.2.1 then st.2.1 else st.2.1 ++ [sender]), st.2.2)
      else st
    | _, _ => st

/-- The loop of the main path of `parseTelegramExport`: fold over the
`.history` children (`now` is the initial `currentDate = new Date()`). -/
def tgExtract (now : Int) (children : List TgBlock) : TgState :=
  children.foldl tgStep ⟨[], [], now, none⟩

/-- `parseTelegramExport(content)`.  `now` models the wall clock read by the
initial `let currentDate = new Date()`. -/
def parseTelegramExport (now : Int) (doc : TgDoc) : TgResult :=
  let chatName := (doc.headerText.map jsTrim).getD "Telegram Chat"
  match doc.history with
  | none => parseAlternativeFormat now doc
  | some children =>
    let st := tgExtract now children
    let sorted := st.messages.mergeSort tgTsLEb
    { messages := sorted
      metadata :=
        { format := "telegram"
          totalMessages := sorted.length
          participants := st.participants
          chatName := some chatName
          dateRangeStart := (sorted.head?).map (·.timestamp)
          dateRangeEnd := (sorted.getLast?).map (·.timestamp) } }

/-- `isTelegramFormat(content)`. -/
def isTelegramFormat (content : String) : Bool :=
  containsSub content.data "page_wrap".data ||
  containsSub content.data "message default".data ||
  containsSub content.data "class=\"history\"".data ||
  containsSub content.data "from_name".data ||
  containsSub content.data "Telegram".data

/-- The body of the `results.forEach` loop of `mergeTelegramResults`: the
accumulator carries the concatenated messages, the participant `Set` in
insertion order, and the running `chatName` (JS truthiness of
`result.metadata.chatName` for a string is `≠ ""`). -/
def mergeStep (acc : List TgMessage × List String × String) (r : TgResult) :
    List TgMessage × List String × String :=
  let msgs := acc.1 ++ r.messages
  let parts := r.metadata.participants.foldl
    (fun a p => if p ∈ a then a else a ++ [p]) acc.2.1
  let cn :=
    match r.metadata.chatName with
    | some c => if c ≠ "" ∧ c ≠ "Telegram Chat" then c else acc.2.2
    | none => acc.2.2
  (msgs, parts, cn)

/-- Whether a result carries a truthy, non-default chat name. -/
def hasNonDefaultChatName (r : TgResult) : Bool :=
  match r.metadata.chatName with
  | some c => decide (c ≠ "" ∧ c ≠ "Telegram Chat")
  | none => false

/-- Modelled from the spec: "keep the first non-default chat name
encountered" in the supplied file order. -/
def firstNonDefaultChatName (results : List TgResult) : String :=
  match results.find? hasNonDefaultChatName with
  | some r => (r.metadata.chatName).getD "Telegram Chat"
  | none => "Telegram Chat"

/-- The last non-default chat name in the supplied order — what the loop of
`mergeTelegramResults` actually keeps. -/
def lastNonDefaultChatName (results : List TgResult) : String :=
  match results.reverse.find? hasNonDefaultChatName with
  | some r => (r.metadata.chatName).getD "Telegram Chat"
  | none => "Telegram Chat"

/-- `mergeTelegramResults(results)`. -/
def mergeTelegramResults (results : List TgResult) : TgResult :=
  let st := results.foldl mergeStep ([], [], "Telegram Chat")
  let sorted := st.1.mergeSort tgTsLEb
  { messages := sorted
    metadata :=
      { format := "telegram"
        totalMessages := sorted.length
        participants := st.2.1
        chatName := some st.2.2
        dateRangeStart := (sorted.head?).map (·.timestamp)
        dateRangeEnd := (sorted.getLast?).map (·.timestamp) } }

/-! ## CSV parser (`parseCSV`) -/

def csvEmptyError : String := "CSV file appears to be empty or has no data rows."

def csvNoMessagesError : String :=
  "No valid messages found in CSV file. Please check the file format."

/-- The router's error for an unrecognised format (`parserRouter.js`). -/
def unsupportedFormatError : String :=
  "Unsupported file format. Please upload a WhatsApp export (.txt), Telegram export (.html), or CSV file."

/-- The character loop of `parseCSVLine` (quoted-field-aware splitting):
an escaped `""` inside quotes appends a quote, an unescaped `"` toggles
quote mode, a comma outside quotes closes the field. -/
def parseCSVLineAux : List Char → Bool → List Char → List String → List String
  | [], _, current, values => values ++ [jsTrim ⟨current.reverse⟩]
  | '"' :: '"' :: rest, true, current, values =>
    parseCSVLineAux rest true ('"' :: current) values
  | '"' :: rest, inQuotes, current, values =>
    parseCSVLineAux rest (!inQuotes) current values
  | ',' :: rest, false, current, values =>
    parseCSVLineAux rest false [] (values ++ [jsTrim ⟨current.reverse⟩])
  | c :: rest, inQuotes, current, values =>
    parseCSVLineAux rest inQuotes (c :: current) values

/-- `parseCSVLine(line)`. -/
def parseCSVLine (line : String) : List String :=
  parseCSVLineAux line.data false [] []

def timestampNames : List String :=
  ["timestamp", "date", "time", "datetime", "created_at", "date_time", "sent_at"]

def senderNames : List String :=
  ["sender", "from", "author", "user", "name", "participant", "from_user", "username"]

def messageNames : List String :=
  ["message", "text", "content", "body", "message_text", "msg", "message_content"]

/-- `findColumnIndex(header, possibleNames)`: the first name present wins. -/
def findColumnIndex (header : List String) : List String → Option Nat
  | [] => none
  | n :: rest =>
    match header.findIdx? (· = n) with
    | some i => some i
    | none => findColumnIndex header rest

structure CsvColumnMap where
  timestamp : Option Nat
  sender : Option Nat
  message : Option Nat
deriving Repr, DecidableEq

/-- `mapColumns(header)`. -/
def mapColumns (header : List String) : CsvColumnMap :=
  let lowerHeader := header.map fun h => jsTrim ⟨lowerChars h.data⟩
  ⟨findColumnIndex lowerHeader timestampNames,
   findColumnIndex lowerHeader senderNames,
   findColumnIndex lowerHeader messageNames⟩

/-- JS truthiness of a column index: both `null` and the index `0` are
falsy (so a required column sitting in the first CSV column fails the
`!columnMap.x` check — modelled faithfully). -/
def jsTruthyIdx : Option Nat → Bool
  | none => false
  | some n => n ≠ 0

/-- Exactly two digits: `(\d{2})` in a position where the next regex token
can itself match a digit, so a maximal-run check would be wrong. -/
def takeTwoDigits : List Char → Option (List Char)
  | a :: b :: rest => if isDigitChar a ∧ isDigitChar b then some rest else none
  | _ => none

/-- `:?(\d{2})?$` — the optional-seconds tail of the fallback regexes of
`parseTimestamp`: nothing, a lone `:`, a `:` plus two digits, or two digits
(the `:?` and `(\d{2})?` are independently optional). -/
def csvOptSecondsEnd : List Char → Bool
  | [] => true
  | [':'] => true
  | ':' :: a :: b :: [] => isDigitChar a && isDigitChar b
  | a :: b :: [] => isDigitChar a && isDigitChar b
  | _ => false

/-- `\s+(\d{lo,hi}):(\d{2}):?(\d{2})?$` — the common time tail of the
three fallback regexes; `lo`/`hi` bound the hour digits.  The hour run is
followed by `:` (never a digit), so the greedy run check is exact; the
minutes are taken as exactly two digits because the tail may start with a
digit. -/
def csvFallbackTime (lo hi : Nat) (cs : List Char) : Bool :=
  match (do
    let r1 ← ws1 cs
    let (_, r2) ← takeDigitsRange lo hi r1
    let r3 ← expectChar ':' r2
    takeTwoDigits r3 : Option (List Char)) with
  | some rest => csvOptSecondsEnd rest
  | none => false

/-- `^(\d{4})-(\d{2})-(\d{2})\s+(\d{2}):(\d{2}):?(\d{2})?$`. -/
def csvFallback1 (cs : List Char) : Bool :=
  match (do
    let (_, r1) ← takeDigitsRange 4 4 cs
    let r2 ← expectChar '-' r1
    let (_, r3) ← takeDigitsRange 2 2 r2
    let r4 ← expectChar '-' r3
    let (_, r5) ← takeDigitsRange 2 2 r4
    pure r5 : Option (List Char)) with
  | some rest => csvFallbackTime 2 2 rest
  | none => false

/-- `^(\d{2})\/(\d{2})\/(\d{4})\s+(\d{2}):(\d{2}):?(\d{2})?$`. -/
def csvFallback2 (cs : List Char) : Bool :=
  match (do
    let (_, r1) ← takeDigitsRange 2 2 cs
    let r2 ← expectChar '/' r1
    let (_, r3) ← takeDigitsRange 2 2 r2
    let r4 ← expectChar '/' r3
    let (_, r5) ← takeDigitsRange 4 4 r4
    pure r5 : Option (List Char)) with
  | some rest => csvFallbackTime 2 2 rest
  | none => false

/-- `^(\d{1,2})\/(\d{1,2})\/(\d{4})\s+(\d{1,2}):(\d{2}):?(\d{2})?$`. -/
def csvFallback3 (cs : List Char) : Bool :=
  match (do
    let (_, r1) ← takeDigitsRange 1 2 cs
    let r2 ← expectChar '/' r1
    let (_, r3) ← takeDigitsRange 1 2 r2
    let r4 ← expectChar '/' r3
    let (_, r5) ← takeDigitsRange 4 4 r4
    pure r5 : Option (List Char)) with
  | some rest => csvFallbackTime 1 2 rest
  | none => false

/-- Whether `str` matches one of the three fallback formats of
`parseTimestamp` (csvParser.js lines 166-173). -/
def matchesCsvFallback (str : String) : Bool :=
  csvFallback1 str.data || csvFallback2 str.data || csvFallback3 str.data

/-- `parseTimestamp(str)`.  Native parsing (`new Date(str)`, modelled as the
ECMAScript-guaranteed ISO forms, `nativeDateParse`) yields a valid `Date`
(`some (some t)`).  Otherwise, when one of the three fallback regexes
matches, the source returns `new Date(str)` AGAIN — which just failed — so
it hands back an invalid `Date` object: truthy, but with a `NaN` time value
(`some none`).  Otherwise `null` (`none`). -/
def parseTimestamp (str : String) : Option (Option Int) :=
  match nativeDateParse str with
  | some t => some (some t)
  | none => if matchesCsvFallback str then some none else none

/-- A CSV message as pushed by `parseCSV`: `timestamp` holds the pushed
`Date` object's time value, `none` when it is an invalid `Date` (`NaN`). -/
structure CsvMessage where
  timestamp : Option Int
  sender : String
  text : String
deriving Repr, DecidableEq

/-- The sort comparator `(a, b) => a.timestamp - b.timestamp` on CSV
messages: when either time value is `NaN` the subtraction is `NaN`, which
`Array.prototype.sort` treats as `+0` — the pair compares as equal, and the
stable merge takes from the left run (`true`). -/
def csvTsLEb (a b : CsvMessage) : Bool :=
  match a.timestamp, b.timestamp with
  | some x, some y => x ≤ y
  | _, _ => true

/-- `Math.min(...timestamps)` over time values that may be `NaN`: any `NaN`
makes the result `NaN`, and `new Date(NaN)` is an invalid date (`none`). -/
def listMinOptInt (xs : List (Option Int)) : Option Int :=
  if none ∈ xs then none else some (listMinInt (xs.filterMap id))

/-- `Math.max(...timestamps)` with the same `NaN` propagation. -/
def listMaxOptInt (xs : List (Option Int)) : Option Int :=
  if none ∈ xs then none else some (listMaxInt (xs.filterMap id))

/-- Metadata of a CSV parse: the date-range endpoints are invalid dates
(`none`) when any pushed message carries a `NaN` timestamp. -/
structure CsvMetadata where
  totalMessages : Nat
  participants : List String
  dateRangeStart : Option Int
  dateRangeEnd : Option Int
deriving Repr, DecidableEq

structure CsvResult where
  messages : List CsvMessage
  metadata : CsvMetadata
deriving Repr, DecidableEq

/-- The extraction stage of `parseCSV` (everything before the zero-messages
check and the final sort): header split, column mapping, and the
row-skipping data loop, producing messages in row order.  A row whose
timestamp string parses to an invalid `Date` that matches a fallback regex
IS pushed (`if (timestamp)` is true for any `Date` object), with a `NaN`
time value. -/
def csvExtract (content : String) : Except String (List CsvMessage) :=
  let lines := ((jsSplitChar '\n' content.data).map fun cs => (⟨cs⟩ : String)).filter
    fun l => jsTrim l ≠ ""
  if lines.length < 2 then .error csvEmptyError
  else
    let header := parseCSVLine (lines.headD "")
    let columnMap := mapColumns header
    if ¬(jsTruthyIdx columnMap.timestamp ∧ jsTruthyIdx columnMap.sender ∧
          jsTruthyIdx columnMap.message) then
      .error ("CSV file must have columns for timestamp, sender, and message. Found columns: "
        ++ String.intercalate ", " header)
    else
      let ti := columnMap.timestamp.getD 0
      let si := columnMap.sender.getD 0
      let mi := columnMap.message.getD 0
      .ok ((lines.drop 1).foldl
        (fun acc line =>
          let values := parseCSVLine line
          if values.length < max ti (max si mi) + 1 then acc
          else
            let timestampStr := values.getD ti ""
            let sender := values.getD si ""
            let text := values.getD mi ""
            if sender = "" ∨ text = "" ∨ timestampStr = "" then acc
            else
              match parseTimestamp timestampStr with
              | some ts => acc ++ [(⟨ts, jsTrim sender, jsTrim text⟩ : CsvMessage)]
              | none => acc)
        [])

/-- `parseCSV(content)`. -/
def parseCSV (content : String) : Except String CsvResult :=
  match csvExtract content with
  | .error e => .error e
  | .ok messages =>
    if messages = [] then .error csvNoMessagesError
    else
      let sorted := messages.mergeSort csvTsLEb
      .ok ⟨sorted,
        ⟨sorted.length, dedupFirstSeen (sorted.map (·.sender)),
          listMinOptInt (sorted.map (·.timestamp)),
          listMaxOptInt (sorted.map (·.timestamp))⟩⟩

/-! ## Analytics: response timing (`analyzeResponseTiming`) -/

/-- JS default-sort string comparison: code-unit-wise lexicographic order
(implemented on the character list; for the ASCII data of this repository
this coincides with UTF-16 code-unit order). -/
def charListLE : List Char → List Char → Bool
  | [], _ => true
  | _ :: _, [] => false
  | a :: as, b :: bs =>
    if a.toNat < b.toNat then true
    else if b.toNat < a.toNat then false
    else charListLE as bs

def strLEb (a b : String) : Bool := charListLE a.data b.data

def intLEb (a b : Int) : Bool := a ≤ b

/-- One recorded response event: the responder, the latency in minutes and
the timestamp of the responding message. -/
structure ResponseEvent where
  sender : String
  time : ℚ
  timestamp : Int
deriving Repr, DecidableEq

/-- `(currentTime - previousTime) / (1000 * 60)`: the latency in minutes. -/
def minutesBetween (previous current : Message) : ℚ :=
  let deltaMs : Int := current.timestamp - previous.timestamp
  (deltaMs : ℚ) / (1000 * 60)

/-- The body of the consecutive-pair loop of `analyzeResponseTiming`: a pair
contributes an event iff the sender changes and the minute delta lies in
`[0, 1440]`. -/
def rtEvent (previous current : Message) : Option ResponseEvent :=
  if current.sender ≠ previous.sender then
    let responseTime := minutesBetween previous current
    if responseTime ≤ 1440 ∧ 0 ≤ responseTime then
      some ⟨current.sender, responseTime, current.timestamp⟩
    else none
  else none

/-- The recorded response events, in message order. -/
def responseEvents (msgs : List Message) : List ResponseEvent :=
  (msgs.zip msgs.tail).filterMap fun pc => rtEvent pc.1 pc.2

/-- `[...new Set(messages.map(m => m.sender))].sort()`. -/
def sortedSenders (msgs : List Message) : List String :=
  (dedupFirstSeen (msgs.map (·.sender))).mergeSort strLEb

/-- `allResponses`: per-sender event lists concatenated in sender order and
re-sorted by timestamp. -/
def allResponses (msgs : List Message) : List ResponseEvent :=
  ((sortedSenders msgs).flatMap fun s =>
    (responseEvents msgs).filter (·.sender = s)).mergeSort
    fun a b => a.timestamp ≤ b.timestamp

structure RTPeriod where
  label : String
  overallAvg : ℚ
deriving Repr, DecidableEq

/-- The 3–10 equal-size chronological periods of `analyzeResponseTiming`. -/
def rtPeriods (msgs : List Message) : List RTPeriod :=
  let all := allResponses msgs
  let n := all.length
  let numPeriods := min 10 (max 3 (n / 5))
  let periodSize := (n + numPeriods - 1) / numPeriods
  (List.range numPeriods).filterMap fun i =>
    let start := i * periodSize
    let stop := min ((i + 1) * periodSize) n
    let periodResponses := (all.drop start).take (stop - start)
    if periodResponses.length > 0 then
      some ⟨"Period " ++ toString (i + 1),
        (periodResponses.map (·.time)).sum / periodResponses.length⟩
    else none

/-- One chart dataset (the styling constants of the source are
presentation-only and omitted). -/
structure Dataset where
  label : String
  data : List ℚ
deriving Repr, DecidableEq

structure SenderStat where
  avg : ℚ
  count : Nat
deriving Repr, DecidableEq

structure RTStatistics where
  overallAvgMinutes : ℚ
  senderStats : List (String × SenderStat)
  trend : String
  totalResponses : Nat
deriving Repr, DecidableEq

/-- Result of `analyzeResponseTiming`; `statistics = none` models the empty
`{}` returned below the 2-message threshold. -/
structure RTResult where
  labels : List String
  datasets : List Dataset
  statistics : Option RTStatistics
deriving Repr, DecidableEq

/-- `analyzeResponseTiming(messages)`. -/
def analyzeResponseTiming (msgs : List Message) : RTResult :=
  if msgs.length < 2 then ⟨[], [], none⟩
  else
    let all := allResponses msgs
    let periods := rtPeriods msgs
    let labels := periods.map (·.label)
    let datasets := [⟨"Average Response Time (minutes)",
      periods.map fun p => (jsRound (p.overallAvg * 10) : ℚ) / 10⟩]
    let allTimes := all.map (·.time)
    let overallAvg : ℚ := if allTimes.length > 0 then allTimes.sum / allTimes.length else 0
    let senderStats := (sortedSenders msgs).map fun s =>
      let times := ((responseEvents msgs).filter (·.sender = s)).map (·.time)
      (s, (⟨if times.length > 0 then (jsRound (times.sum / times.length * 10) : ℚ) / 10 else 0,
        times.length⟩ : SenderStat))
    let trend :=
      if periods.length ≥ 2 then
        let firstHalf := periods.take (periods.length / 2)
        let secondHalf := periods.drop (periods.length / 2)
        let firstHalfAvg := (firstHalf.map (·.overallAvg)).sum / firstHalf.length
        let secondHalfAvg := (secondHalf.map (·.overallAvg)).sum / secondHalf.length
        if secondHalfAvg > firstHalfAvg * (3 / 2 : ℚ) then "slowing"
        else if secondHalfAvg < firstHalfAvg * (7 / 10 : ℚ) then "quickening"
        else "stable"
      else "stable"
    ⟨labels, datasets,
      some ⟨(jsRound (overallAvg * 10) : ℚ) / 10, senderStats, trend, all.length⟩⟩

/-! ## Analytics: initiation balance (`analyzeInitiationBalance`) -/

/-- `CONVERSATION_GAP_HOURS * 60 * 60 * 1000`. -/
def CONVERSATION_GAP_MS : Int := 4 * 60 * 60 * 1000

/-- Increment one key of a counts dictionary. -/
def bump (f : String → Nat) (s : String) : String → Nat :=
  fun x => if x = s then f x + 1 else f x

/-- The `initiations` dictionary of `analyzeInitiationBalance`: the first
message always initiates; later messages initiate when the gap from the
previous message is at least the threshold. -/
def initiationsOf (msgs : List Message) : String → Nat :=
  match msgs with
  | [] => fun _ => 0
  | m0 :: _ =>
    (msgs.zip msgs.tail).foldl
      (fun f pc =>
        if pc.2.timestamp - pc.1.timestamp ≥ CONVERSATION_GAP_MS then bump f pc.2.sender
        else f)
      (bump (fun _ => 0) m0.sender)

structure IBStatistics where
  total : Nat
  counts : List (String × Nat)
  percentages : List (String × Int)
  balance : String
  moreInitiator : Option String
  lessInitiator : Option String
  difference : Option Int
deriving Repr, DecidableEq

/-- Result of `analyzeInitiationBalance`; `statistics = none` models the
empty `{}` below the 2-message threshold, and in `IBStatistics` the fields
that become `undefined`/`NaN` on single-participant input are `Option`s
(`difference = Math.abs(p₀ - undefined) = NaN` is `none`). -/
structure IBResult where
  labels : List String
  data : List Nat
  statistics : Option IBStatistics
deriving Repr, DecidableEq

/-- `analyzeInitiationBalance(messages)`. -/
def analyzeInitiationBalance (msgs : List Message) : IBResult :=
  if msgs.length < 2 then ⟨[], [], none⟩
  else
    let senders := sortedSenders msgs
    let inits := initiationsOf msgs
    let totalInitiations := (senders.map inits).sum
    let pct : String → Int := fun s =>
      if totalInitiations > 0 then jsRound ((inits s : ℚ) / totalInitiations * 100) else 0
    let s0 := senders.headD ""
    let (balance, difference) :=
      match senders.get? 1 with
      | some s1 =>
        let d := (pct s0 - pct s1).natAbs
        (if d ≤ 10 then "balanced"
          else if d ≤ 25 then "slightly_unbalanced"
          else "unbalanced", some (Int.ofNat d))
      | none => ("unbalanced", none)
    let (moreInitiator, lessInitiator) :=
      match senders.get? 1 with
      | some s1 =>
        if inits s0 > inits s1 then (some s0, some s1) else (some s1, some s0)
      | none => (none, some s0)
    ⟨senders, senders.map inits,
      some ⟨totalInitiations, senders.map fun s => (s, inits s),
        senders.map fun s => (s, pct s), balance, moreInitiator, lessInitiator, difference⟩⟩

/-! ## Analytics: streaks (`analyzeStreaks`)

Calendar dates are represented by their day number (days since the epoch);
the source's ISO `"YYYY-MM-DD"` strings sort exactly like these integers,
and its `Math.round((currDate - prevDate) / 86400000)` is the exact integer
difference of day numbers.  `now` is the value of the `new Date()` read at
line 233 of the source (the only clock read in the analytics layer). -/

/-- One entry of the `streaks` array (`end` is a Lean keyword, renamed to
`stop`). -/
structure Streak where
  start : Int
  stop : Int
  length : Nat
deriving Repr, DecidableEq

/-- One iteration of the consecutive-day walk: the state is
`(closed streaks, current run length, run start, previous date)`. -/
def streakStep (acc : List Streak × Nat × Int × Int) (curr : Int) :
    List Streak × Nat × Int × Int :=
  let (streaks, len, start, prev) := acc
  if curr - prev = 1 then (streaks, len + 1, start, curr)
  else (streaks ++ [⟨start, prev, len⟩], 1, curr, curr)

/-- The consecutive-day walk over the sorted unique dates: a gap of exactly
1 day extends the current run, anything else closes it. -/
def streakWalk : List Int → List Streak
  | [] => []
  | d0 :: rest =>
    let st := rest.foldl streakStep ([], 1, d0, d0)
    st.1 ++ [⟨st.2.2.1, st.2.2.2, st.2.1⟩]

structure StreaksResult where
  longestStreak : Nat
  longestStreakInfo : Option Streak
  currentStreak : Nat
  isStreakActive : Bool
  totalActiveDays : Nat
  totalSpanDays : Int
  activeDayPercent : Int
  avgGapDays : ℚ
  streakHistory : List Streak
deriving Repr, DecidableEq

/-- The empty-shape result (the source's early return only carries
`longestStreak`, `currentStreak`, `totalActiveDays`, `streakHistory`; the
omitted fields are modelled by zero/`none`/`false`). -/
def emptyStreaksResult : StreaksResult :=
  ⟨0, none, 0, false, 0, 0, 0, 0, []⟩

/-- `analyzeStreaks(messages)`, with the `new Date()` clock read modelled as
the explicit parameter `now`. -/
def analyzeStreaks (msgs : List Message) (now : Int) : StreaksResult :=
  if msgs.isEmpty then emptyStreaksResult
  else
    let sortedDates := (dedupFirstSeen (msgs.map fun m => dayOfTs m.timestamp)).mergeSort intLEb
    let totalActiveDays := sortedDates.length
    if sortedDates.isEmpty then emptyStreaksResult
    else
      let streaks := streakWalk sortedDates
      let longestStreak := listMaxNat (streaks.map (·.length))
      let longestStreakInfo := streaks.find? (·.length = longestStreak)
      let lastDate := sortedDates.getLastD 0
      let today := dayOfTs now
      let daysSinceLastMessage := today - lastDate
      let isStreakActive := daysSinceLastMessage ≤ 1
      let currentStreakValue :=
        if isStreakActive then ((streaks.getLast?).map (·.length)).getD 0 else 0
      let gapsList : List Int := (sortedDates.zip sortedDates.tail).filterMap fun pc =>
        if pc.2 - pc.1 > 1 then some (pc.2 - pc.1) else none
      let totalGaps : Int := gapsList.sum
      let avgGap : ℚ :=
        if gapsList.length > 0 then
          (jsRound (((totalGaps : ℚ) / gapsList.length) * 10) : ℚ) / 10
        else 0
      let firstDate := sortedDates.headD 0
      let totalSpanDays := (lastDate - firstDate) + 1
      let activeDayPercent := jsRound ((totalActiveDays : ℚ) / (totalSpanDays : ℚ) * 100)
      ⟨longestStreak, longestStreakInfo, currentStreakValue, isStreakActive,
        totalActiveDays, totalSpanDays, activeDayPercent, avgGap,
        streaks.filter (·.length ≥ 3)⟩

/-! ## Analytics: message activity (`analyzeMessageActivity`) -/

/-- `String(n).padStart(2, '0')`. -/
def pad2 (n : Int) : String :=
  if 0 ≤ n ∧ n < 10 then "0" ++ toString n else toString n

/-- `getBinKey(date, binType)`: the padded key strings the source sorts
lexicographically (which for these keys is chronological order). -/
def getBinKey (ts : Int) (binType : String) : String :=
  let day := dayOfTs ts
  let c := civilFromDays day
  match binType with
  | "month" => toString c.1 ++ "-" ++ pad2 c.2.1
  | "week" =>
    let ws := day - jsGetDay day
    let cw := civilFromDays ws
    toString cw.1 ++ "-" ++ pad2 cw.2.1 ++ "-" ++ pad2 cw.2.2
  | _ => toString c.1 ++ "-" ++ pad2 c.2.1 ++ "-" ++ pad2 c.2.2

def monthNames : List String :=
  ["Jan", "Feb", "Mar", "Apr", "May", "Jun", "Jul", "Aug", "Sep", "Oct", "Nov", "Dec"]

/-- `formatBinLabel(key, binType)`. -/
def formatBinLabel (key binType : String) : String :=
  let parts := (jsSplitChar '-' key.data).map fun cs => (⟨cs⟩ : String)
  match binType with
  | "month" =>
    let m := (parseIntPrefix (parts.getD 1 "").data).getD 0
    monthNames.getD (m - 1).toNat "" ++ " " ++ parts.getD 0 ""
  | _ => parts.getD 2 "" ++ "/" ++ parts.getD 1 ""

/-- A per-sender chart dataset with integer counts. -/
structure DatasetN where
  label : String
  data : List Nat
deriving Repr, DecidableEq

/-- `firstHalfAvg`/`secondHalfAvg` are `Option ℚ` because the source divides
`firstHalfTotal / firstHalf.length` without a zero guard: with a single bin
`firstHalf` is empty and the field is `NaN` (`none`). -/
structure MAStatistics where
  totalMessages : Nat
  avgPerBin : ℚ
  trend : String
  firstHalfAvg : Option ℚ
  secondHalfAvg : Option ℚ
deriving Repr, DecidableEq

/-- Result of `analyzeMessageActivity`; on empty input the source returns
`{ labels: [], datasets: [] }` with no `binType`/`statistics` fields,
modelled by the `none`s. -/
structure MAResult where
  labels : List String
  datasets : List DatasetN
  binType : Option String
  statistics : Option MAStatistics
deriving Repr, DecidableEq

/-- `analyzeMessageActivity(messages)`. -/
def analyzeMessageActivity (msgs : List Message) : MAResult :=
  if msgs.isEmpty then ⟨[], [], none, none⟩
  else
    let startDate := (msgs.headD ⟨0, "", ""⟩).timestamp
    let endDate := (msgs.getLastD ⟨0, "", ""⟩).timestamp
    let spanMs : Int := endDate - startDate
    let durationDays : ℚ := (spanMs : ℚ) / (1000 * 60 * 60 * 24)
    let binType := if durationDays > 365 then "month"
      else if durationDays > 60 then "week" else "day"
    let senders := sortedSenders msgs
    let binKeys := dedupFirstSeen (msgs.map fun m => getBinKey m.timestamp binType)
    let sortedKeys := binKeys.mergeSort strLEb
    let binTotal : String → Nat := fun key =>
      (msgs.filter fun m => getBinKey m.timestamp binType = key).length
    let binSender : String → String → Nat := fun key s =>
      (msgs.filter fun m => getBinKey m.timestamp binType = key ∧ m.sender = s).length
    let labels := sortedKeys.map (formatBinLabel · binType)
    let datasets := senders.map fun s =>
      (⟨s, sortedKeys.map fun key => binSender key s⟩ : DatasetN)
    let totalMessages := msgs.length
    let avgPerBin : ℚ := (totalMessages : ℚ) / sortedKeys.length
    let firstHalf := sortedKeys.take (sortedKeys.length / 2)
    let secondHalf := sortedKeys.drop (sortedKeys.length / 2)
    let firstHalfTotal := (firstHalf.map binTotal).sum
    let secondHalfTotal := (secondHalf.map binTotal).sum
    let trend :=
      if (secondHalfTotal : ℚ) > (firstHalfTotal : ℚ) * (6 / 5 : ℚ) then "increasing"
      else if (secondHalfTotal : ℚ) < (firstHalfTotal : ℚ) * (4 / 5 : ℚ) then "decreasing"
      else "stable"
    let firstHalfAvg : Option ℚ :=
      if firstHalf.length = 0 then none
      else some ((jsRound ((firstHalfTotal : ℚ) / firstHalf.length * 10) : ℚ) / 10)
    let secondHalfAvg : Option ℚ :=
      if secondHalf.length = 0 then none
      else some ((jsRound ((secondHalfTotal : ℚ) / secondHalf.length * 10) : ℚ) / 10)
    ⟨labels, datasets, some binType,
      some ⟨totalMessages, (jsRound (avgPerBin * 10) : ℚ) / 10, trend,
        firstHalfAvg, secondHalfAvg⟩⟩

/-! ## Analytics: conversation rhythm (`analyzeConversationRhythm`) -/

def ratLEb (a b : ℚ) : Bool := a ≤ b

/-- The inter-message gaps in minutes. -/
def gapsMinutes (msgs : List Message) : List ℚ :=
  (msgs.zip msgs.tail).map fun pc =>
    let deltaMs : Int := pc.2.timestamp - pc.1.timestamp
    (deltaMs : ℚ) / (1000 * 60)

/-- `Math.round` on a real (for the `cv`-derived quantities). -/
noncomputable def jsRoundR (x : ℝ) : Int := ⌊x + 1 / 2⌋

structure PhaseStat where
  messageCount : Nat
  avgGapMinutes : ℚ
  senderCounts : List (String × Nat)
deriving Repr, DecidableEq

/-- `analyzePhases(messages)`. -/
def analyzePhases (msgs : List Message) : List (String × PhaseStat) :=
  let thirdLength := msgs.length / 3
  [("early", 0), ("middle", 1), ("late", 2)].map fun p =>
    let start := p.2 * thirdLength
    let stop := if p.2 = 2 then msgs.length else (p.2 + 1) * thirdLength
    let phaseMessages := (msgs.drop start).take (stop - start)
    let gaps := gapsMinutes phaseMessages
    let avgGap : ℚ := if gaps.length > 0 then gaps.sum / gaps.length else 0
    let senders := dedupFirstSeen (phaseMessages.map (·.sender))
    let senderCounts := senders.map fun s =>
      (s, (phaseMessages.filter (·.sender = s)).length)
    (p.1, ⟨phaseMessages.length, (jsRound (avgGap * 10) : ℚ) / 10, senderCounts⟩)

/-- `variabilityCoefficient = Math.round(cv * 100) / 100` is `none` when the
cv is not finite, which happens exactly when `avgGap = 0` (JS `x / 0` is
`±Infinity` and `0 / 0` is `NaN`). -/
structure RhythmDetails where
  avgGapMinutes : ℚ
  medianGapMinutes : ℚ
  variabilityCoefficient : Option ℝ
  firstPhaseAvgGap : ℚ
  lastPhaseAvgGap : ℚ
  phases : List (String × PhaseStat)

/-- Result of `analyzeConversationRhythm`; `details = none` models the empty
`{}` below the 5-message threshold. -/
structure RhythmResult where
  rhythm : String
  confidence : ℝ
  details : Option RhythmDetails

/-- `analyzeConversationRhythm(messages)`.

`cv = Math.sqrt(variance) / avgGap` is a JS float; its uses are translated
exactly, including the division-by-zero corners:
* `cv > 1.5` holds iff `avgGap = 0 ∧ variance > 0` (`cv = +∞`) or
  `avgGap > 0 ∧ variance > 2.25·avgGap²`; for `avgGap < 0` the quotient is
  `≤ 0`, and for `avgGap = 0 ∧ variance = 0` it is `NaN` (comparison false).
* `cv < 0.8` holds iff `avgGap < 0` (quotient `≤ 0`) or
  `avgGap > 0 ∧ variance < 0.64·avgGap²`.
* a ratio over a zero first-third average is `±Infinity`, making the
  `Math.min(0.9, …)` confidences collapse to `0.9`. -/
noncomputable def analyzeConversationRhythm (msgs : List Message) : RhythmResult :=
  if msgs.length < 5 then ⟨"insufficient_data", 0, none⟩
  else
    let gaps := gapsMinutes msgs
    let avgGap : ℚ := gaps.sum / gaps.length
    let sortedGaps := gaps.mergeSort ratLEb
    let medianGap : ℚ := sortedGaps.getD (sortedGaps.length / 2) 0
    let variance : ℚ := (gaps.map fun g => (g - avgGap) ^ 2).sum / gaps.length
    let cvReal : ℝ := Real.sqrt (variance : ℝ) / (avgGap : ℝ)
    let thirdLength := gaps.length / 3
    let firstThird := gaps.take thirdLength
    let lastThird := gaps.drop (gaps.length - thirdLength)
    let firstThirdAvg : ℚ := firstThird.sum / firstThird.length
    let lastThirdAvg : ℚ := lastThird.sum / lastThird.length
    let cvGt15 : Prop := (avgGap = 0 ∧ variance > 0) ∨
      (avgGap > 0 ∧ variance > (9 / 4 : ℚ) * avgGap ^ 2)
    let cvLt08 : Prop := avgGap < 0 ∨
      (avgGap > 0 ∧ variance < (16 / 25 : ℚ) * avgGap ^ 2)
    let rc : String × ℝ :=
      if lastThirdAvg > firstThirdAvg * 2 then
        ("slowing",
          if firstThirdAvg = 0 then (9 / 10 : ℝ)
          else min (9 / 10 : ℝ) (((lastThirdAvg / firstThirdAvg - 1) / 3 : ℚ) : ℝ))
      else if cvGt15 then
        ("irregular",
          if avgGap = 0 then (9 / 10 : ℝ)
          else min (9 / 10 : ℝ) ((cvReal - 1) / 2))
      else if lastThirdAvg < firstThirdAvg * (1 / 2 : ℚ) then
        ("accelerating",
          if firstThirdAvg = 0 then (9 / 10 : ℝ)
          else min (9 / 10 : ℝ) ((1 - lastThirdAvg / firstThirdAvg : ℚ) : ℝ))
      else if cvLt08 then
        ("stable", min (9 / 10 : ℝ) (1 - cvReal))
      else ("variable", 1 / 2)
    ⟨rc.1, (jsRoundR (rc.2 * 100) : ℝ) / 100,
      some ⟨(jsRound (avgGap * 10) : ℚ) / 10, (jsRound (medianGap * 10) : ℚ) / 10,
        (if avgGap = 0 then none else some ((jsRoundR (cvReal * 100) : ℝ) / 100)),
        (jsRound (firstThirdAvg * 10) : ℚ) / 10, (jsRound (lastThirdAvg * 10) : ℚ) / 10,
        analyzePhases msgs⟩⟩

/-! ## Analytics: lexical diversity (`analyzeLexicalDiversity`) -/

/-- `String.prototype.split(/\s+/)`: split at maximal whitespace runs (a
leading or trailing run yields an empty field, as in JS). -/
def splitWsRuns : List Char → List (List Char)
  | [] => [[]]
  | c :: rest =>
    let r := splitWsRuns rest
    if isWsChar c then
      match rest with
      | c' :: _ => if isWsChar c' then r else [] :: r
      | [] => [] :: r
    else
      match r with
      | w :: ws => (c :: w) :: ws
      | [] => [[c]]

/-- `extractWords(text)`: lowercase, replace `[^\w\s]` by a space, split on
whitespace, keep words of length `> 1`. -/
def extractWords (text : String) : List String :=
  let replaced := (lowerChars text.data).map fun c =>
    if ¬(isWordChar c ∨ isWsChar c) then ' ' else c
  ((splitWsRuns replaced).map fun cs => (⟨cs⟩ : String)).filter fun w => w.length > 1

/-- `calculateTTR(messages)`: unique words / total words. -/
def calculateTTR (msgs : List Message) : ℚ :=
  if msgs.isEmpty then 0
  else
    let allWords := msgs.flatMap fun m => extractWords m.text
    if allWords.isEmpty then 0
    else ((dedupFirstSeen allWords).length : ℚ) / allWords.length

def countWords (msgs : List Message) : Nat :=
  (msgs.map fun m => (extractWords m.text).length).sum

def countUniqueWords (msgs : List Message) : Nat :=
  (dedupFirstSeen (msgs.flatMap fun m => extractWords m.text)).length

structure LDPeriod where
  label : String
  ttr : ℚ
  senderTTR : List (String × ℚ)
deriving Repr, DecidableEq

structure LDSenderStat where
  ttr : ℚ
  totalWords : Nat
  uniqueWords : Nat
deriving Repr, DecidableEq

/-- `firstHalfAvg`/`secondHalfAvg` are unguarded divisions as in
`analyzeMessageActivity`, hence `Option ℚ`. -/
structure LDStatistics where
  overallTTR : ℚ
  trend : String
  firstHalfAvg : Option ℚ
  secondHalfAvg : Option ℚ
  senderStats : List (String × LDSenderStat)
deriving Repr, DecidableEq

/-- Result of `analyzeLexicalDiversity`; `statistics = none` models the
empty `{}` below the 10-message threshold. -/
structure LDResult where
  labels : List String
  datasets : List Dataset
  statistics : Option LDStatistics
deriving Repr, DecidableEq

/-- `analyzeLexicalDiversity(messages)`. -/
def analyzeLexicalDiversity (msgs : List Message) : LDResult :=
  if msgs.length < 10 then ⟨[], [], none⟩
  else
    let senders := sortedSenders msgs
    let numPeriods := min 10 (max 4 (msgs.length / 20))
    let periodSize := (msgs.length + numPeriods - 1) / numPeriods
    let periods : List LDPeriod := (List.range numPeriods).filterMap fun i =>
      let start := i * periodSize
      let stop := min ((i + 1) * periodSize) msgs.length
      let periodMessages := (msgs.drop start).take (stop - start)
      if periodMessages.length > 0 then
        some ⟨"Period " ++ toString (i + 1), calculateTTR periodMessages,
          senders.map fun s => (s, calculateTTR (periodMessages.filter (·.sender = s)))⟩
      else none
    let labels := periods.map (·.label)
    let datasets := [(⟨"Vocabulary Variety (TTR)",
      periods.map fun p => (jsRound (p.ttr * 100) : ℚ) / 100⟩ : Dataset)]
    let firstHalf := periods.take (periods.length / 2)
    let secondHalf := periods.drop (periods.length / 2)
    let firstHalfAvg : Option ℚ :=
      if firstHalf.length = 0 then none
      else some ((firstHalf.map (·.ttr)).sum / firstHalf.length)
    let secondHalfAvg : Option ℚ :=
      if secondHalf.length = 0 then none
      else some ((secondHalf.map (·.ttr)).sum / secondHalf.length)
    let trend :=
      match firstHalfAvg, secondHalfAvg with
      | some f, some s =>
        if s > f * (11 / 10 : ℚ) then "increasing"
        else if s < f * (9 / 10 : ℚ) then "decreasing"
        else "stable"
      | _, _ => "stable"
    let senderStats := senders.map fun s =>
      let senderMessages := msgs.filter (·.sender = s)
      (s, (⟨(jsRound (calculateTTR senderMessages * 100) : ℚ) / 100,
        countWords senderMessages, countUniqueWords senderMessages⟩ : LDSenderStat))
    ⟨labels, datasets,
      some ⟨(jsRound (calculateTTR msgs * 100) : ℚ) / 100, trend,
        firstHalfAvg.map (fun q => (jsRound (q * 100) : ℚ) / 100),
        secondHalfAvg.map (fun q => (jsRound (q * 100) : ℚ) / 100),
        senderStats⟩⟩

/-! ## Concrete sample inputs used in the instances below -/

/-- A two-line WhatsApp export (out of chronological order). -/
def waSampleContent : String :=
  "1/1/24, 10:05 AM - Bob: Yo\n1/1/24, 10:00 AM - Alice: Hello"

/-- The result of `parseWhatsApp waSampleContent`. -/
def waSampleResult : WAResult :=
  ⟨[⟨1704103200000, "Alice", "Hello"⟩, ⟨1704103500000, "Bob", "Yo"⟩],
    ⟨2, ["Alice", "Bob"], 1704103200000, 1704103500000⟩⟩

/-- A three-column CSV sample (out of chronological order).  A required
column must not sit at index 0: the source's `!columnMap.x` guard treats
index `0` as missing. -/
def csvSampleContent : String :=
  "id,timestamp,sender,message\n1,2024-01-01 10:05,Bob,Yo\n2,2024-01-01 10:00,Alice,Hello"

/-- The result of `parseCSV csvSampleContent`. -/
def csvSampleResult : CsvResult :=
  ⟨[⟨some 1704103200000, "Alice", "Hello"⟩, ⟨some 1704103500000, "Bob", "Yo"⟩],
    ⟨2, ["Alice", "Bob"], some 1704103200000, some 1704103500000⟩⟩

/-- A recognised CSV whose only data row has a timestamp that fails native
parsing but matches the `DD/MM/YYYY HH:MM` fallback regex (month 13): the
row is pushed with a `NaN` timestamp. -/
def csvNaNRowsContent : String :=
  "id,timestamp,sender,message\n1,13/01/2024 10:00,Alice,Hi"

/-- The result of `parseCSV csvNaNRowsContent`: one message, `NaN`
timestamp, invalid date-range endpoints. -/
def csvNaNRowsResult : CsvResult :=
  ⟨[⟨none, "Alice", "Hi"⟩], ⟨1, ["Alice"], none, none⟩⟩

/-- Rows whose timestamps are `NaN`, valid-late, `NaN`, valid-early: the
comparator is inconsistent on `NaN`, and the stable sort emits the two
valid timestamps out of order. -/
def csvNaNMixContent : String :=
  "id,timestamp,sender,message\n1,13/01/2024 10:00,Ann,a\n2,2024-01-01 10:05,Bob,b\n3,14/01/2024 10:00,Cid,c\n4,2024-01-01 10:00,Dee,d"

/-- A Telegram history (service date header, then two messages whose bare
`HH:MM` times are out of chronological order). -/
def tgSampleChildren : List TgBlock :=
  [.service (some "1 August 2025"),
   .message (some "Bob") (some "hi") none (some ⟨none, "10:05"⟩),
   .message (some "Alice") (some "yo") none (some ⟨none, "10:00"⟩)]

def tgSampleDoc : TgDoc := ⟨some "My Chat", some tgSampleChildren, []⟩

/-- A document with no `.history` container whose `<div>`s carry date
headers in decreasing order: the fallback path emits messages with
decreasing timestamps (2 Aug 2025, then 1 Aug 2025) and does not sort. -/
def tgFallbackDoc : TgDoc :=
  ⟨none, none,
    [⟨"2 August 2025", none, none⟩,
     ⟨"A hi", some "A", some "hi"⟩,
     ⟨"1 August 2025", none, none⟩,
     ⟨"B yo", some "B", some "yo"⟩]⟩

/-- A Telegram document whose format is recognised (a well-formed history
container) but which contains zero message blocks. -/
def tgEmptyDoc : TgDoc := ⟨some "My Chat", some [], []⟩

/-- Representative raw content for `tgEmptyDoc`: recognised as Telegram by
the signature scan, yet containing no message blocks. -/
def tgEmptyContent : String :=
  "<html><body><div class=\"history\"></div></body></html>"

/-- A CSV file with a valid header and one malformed data row: the format
is recognised, but zero valid messages are extracted. -/
def csvNoRowsContent : String := "id,timestamp,sender,message\nx"

/-- Spec-side description of the streak walk, from the spec's words: "walk
sorted dates computing consecutive-day runs (gap of exactly 1 day extends
the run, any other gap closes it)".  `specRunGo len prev ds` is the list of
run lengths given a current run of length `len` ending on day `prev`. -/
def specRunGo : Nat → Int → List Int → List Nat
  | len, _, [] => [len]
  | len, prev, d :: ds =>
    if d - prev = 1 then specRunGo (len + 1) d ds else len :: specRunGo 1 d ds

/-- The run lengths of a sorted date list, per the spec's wording. -/
def specRunLengths : List Int → List Nat
  | [] => []
  | d0 :: rest => specRunGo 1 d0 rest

/-- One message on each of 2024-01-01, -02, -03 and -10 (the spec's streak
example dates). -/
def c7Msgs : List Message :=
  [⟨jsDateMs 2024 0 1 9 0 0, "A", "a"⟩, ⟨jsDateMs 2024 0 2 9 0 0, "B", "b"⟩,
   ⟨jsDateMs 2024 0 3 9 0 0, "A", "c"⟩, ⟨jsDateMs 2024 0 10 9 0 0, "B", "d"⟩]

/-- A single message on 2024-01-01. -/
def c4Msgs : List Message := [⟨jsDateMs 2024 0 1 10 0 0, "Alice", "hi"⟩]

/-- A single message — all messages fall into one time bin. -/
def c8Msgs : List Message := [⟨jsDateMs 2024 0 1 10 0 0, "Alice", "hi"⟩]

/-- An invocation time on the same day as the last message. -/
def c4Now1 : Int := jsDateMs 2024 0 1 12 0 0

/-- An invocation time ten days later. -/
def c4Now2 : Int := jsDateMs 2024 0 11 12 0 0

/-- The spec's initiation-balance example: messages at t=0 (A), t=1h (B),
t=10h (A). -/
def c6Msgs : List Message :=
  [⟨0, "A", "x"⟩, ⟨3600000, "B", "y"⟩, ⟨36000000, "A", "z"⟩]

/-- Four messages: one genuine response (Bob after 5 minutes), one
same-sender consecutive pair, and one final gap far beyond 24 hours. -/
def c2SampleMsgs : List Message :=
  [⟨0, "Alice", "a"⟩, ⟨300000, "Bob", "b"⟩, ⟨600000, "Bob", "c"⟩,
   ⟨100000000000, "Alice", "d"⟩]

/-- Two same-sender messages one minute apart: no response events. -/
def c2bSampleMsgs : List Message :=
  [⟨0, "Alice", "a"⟩, ⟨60000, "Alice", "b"⟩]

/-- The statistics `analyzeResponseTiming` computes on `c2bSampleMsgs`. -/
def c2bSampleStats : RTStatistics :=
  ⟨0, [("Alice", ⟨0, 0⟩)], "stable", 0⟩

/-- A single message — below every analyzer's minimum-input threshold. -/
def c10Msgs : List Message := [⟨jsDateMs 2024 0 1 9 0 0, "Alice", "hey"⟩]

/-- A one-message Telegram result whose chat name is "Alpha". -/
def c9ResA : TgResult :=
  { messages := [⟨100000, "Ann", "x", none⟩]
    metadata :=
      { format := "telegram", totalMessages := 1, participants := ["Ann"],
        chatName := some "Alpha", dateRangeStart := some 100000,
        dateRangeEnd := some 100000 } }

/-- A one-message Telegram result whose chat name is "Beta". -/
def c9ResB : TgResult :=
  { messages := [⟨50000, "Bob", "y", none⟩]
    metadata :=
      { format := "telegram", totalMessages := 1, participants := ["Bob"],
        chatName := some "Beta", dateRangeStart := some 50000,
        dateRangeEnd := some 50000 } }

/-! ## Sorting lemmas

ECMAScript 2019+ requires `Array.prototype.sort` to be stable; the model
uses `List.mergeSort`, which is stable.  The comparators of the repository
all compare an integer key. -/

section SortLemmas

variable {α : Type}

/-- A comparator `(a, b) => key a - key b` as a Boolean relation. -/
def keyLE (key : α → Int) (a b : α) : Bool := key a ≤ key b

theorem keyLE_trans (key : α → Int) :
    ∀ a b c : α, keyLE key a b → keyLE key b c → keyLE key a c := by
  intro a b c hab hbc
  simp only [keyLE, decide_eq_true_eq] at *
  omega

theorem keyLE_total (key : α → Int) : ∀ a b : α, keyLE key a b || keyLE key b a := by
  intro a b
  simp only [keyLE]
  by_cases h : key a ≤ key b
  · simp [h]
  · simp [h]
    omega

/-- The sort output is non-decreasing in the key. -/
theorem sorted_mergeSort_key (key : α → Int) (l : List α) :
    (l.mergeSort (keyLE key)).Pairwise fun a b => key a ≤ key b := by
  have h := @List.sorted_mergeSort _ (keyLE key) (keyLE_trans key) (keyLE_total key) l
  exact h.imp fun hab => by simpa [keyLE] using hab

/-- Stability: the sort preserves the relative order of any class of
elements sharing one key value (`p` selects such a class). -/
theorem filter_mergeSort_key (key : α → Int) (p : α → Bool)
    (hp : ∀ a b : α, p a → p b → key a = key b) (l : List α) :
    (l.mergeSort (keyLE key)).filter p = l.filter p := by
  have perm : List.Perm ((l.mergeSort (keyLE key)).filter p) (l.filter p) :=
    (List.mergeSort_perm l _).filter p
  have pw : (l.filter p).Pairwise fun a b => keyLE key a b := by
    apply List.pairwise_of_forall_mem_list
    intro a ha b hb
    have hpa := List.of_mem_filter ha
    have hpb := List.of_mem_filter hb
    simp [keyLE, hp a b hpa hpb]
  have sub : List.Sublist (l.filter p) (l.mergeSort (keyLE key)) :=
    List.sublist_mergeSort (keyLE_trans key) (keyLE_total key) pw (List.filter_sublist l)
  have sub2 := sub.filter p
  have idem : (l.filter p).filter p = l.filter p := by
    rw [List.filter_filter]
    simp
  rw [idem] at sub2
  exact (sub2.eq_of_length perm.length_eq.symm).symm

end SortLemmas

theorem tsLEb_eq_keyLE : tsLEb = keyLE Message.timestamp := rfl

theorem tgTsLEb_eq_keyLE : tgTsLEb = keyLE TgMessage.timestamp := rfl

theorem intLEb_eq_keyLE : intLEb = keyLE id := rfl

/-- `List.merge` only looks at the comparator on its elements. -/
theorem merge_congr {α : Type} : ∀ (xs ys : List α) (le1 le2 : α → α → Bool),
    (∀ a ∈ xs, ∀ b ∈ ys, le1 a b = le2 a b) →
    List.merge xs ys le1 = List.merge xs ys le2
  | [], ys, _, _, _ => by simp
  | x :: xs, [], _, _, _ => by simp
  | x :: xs, y :: ys, le1, le2, h => by
    simp only [List.merge]
    rw [h x (by simp) y (by simp)]
    by_cases hc : le2 x y = true
    · rw [if_pos hc, if_pos hc]
      have := merge_congr xs (y :: ys) le1 le2
        (fun a ha b hb => h a (List.mem_cons_of_mem _ ha) b hb)
      rw [this]
    · rw [if_neg hc, if_neg hc]
      have := merge_congr (x :: xs) ys le1 le2
        (fun a ha b hb => h a ha b (List.mem_cons_of_mem _ hb))
      rw [this]
termination_by xs ys => xs.length + ys.length

/-- `List.mergeSort` only looks at the comparator on the list's elements. -/
theorem mergeSort_congr {α : Type} : ∀ (l : List α) (le1 le2 : α → α → Bool),
    (∀ a ∈ l, ∀ b ∈ l, le1 a b = le2 a b) →
    l.mergeSort le1 = l.mergeSort le2
  | [], _, _, _ => by simp
  | [a], _, _, _ => by simp
  | a :: b :: xs, le1, le2, h => by
    have hmem1 : ∀ p, p ∈ (List.splitInTwo ⟨a :: b :: xs, rfl⟩).1.1 →
        p ∈ a :: b :: xs := by
      intro p hp
      rw [List.splitInTwo_fst] at hp
      exact List.mem_of_mem_take hp
    have hmem2 : ∀ p, p ∈ (List.splitInTwo ⟨a :: b :: xs, rfl⟩).2.1 →
        p ∈ a :: b :: xs := by
      intro p hp
      rw [List.splitInTwo_snd] at hp
      exact List.mem_of_mem_drop hp
    have hlen1 : (List.splitInTwo ⟨a :: b :: xs, rfl⟩).1.1.length <
        xs.length + 1 + 1 := by
      simp [List.splitInTwo_fst]
      omega
    have hlen2 : (List.splitInTwo ⟨a :: b :: xs, rfl⟩).2.1.length <
        xs.length + 1 + 1 := by
      simp [List.splitInTwo_snd]
      omega
    rw [List.mergeSort, List.mergeSort]
    have e1 := mergeSort_congr (List.splitInTwo ⟨a :: b :: xs, rfl⟩).1.1 le1 le2
      (fun p hp q hq => h p (hmem1 p hp) q (hmem1 q hq))
    have e2 := mergeSort_congr (List.splitInTwo ⟨a :: b :: xs, rfl⟩).2.1 le1 le2
      (fun p hp q hq => h p (hmem2 p hp) q (hmem2 q hq))
    rw [e1, e2]
    exact merge_congr _ _ le1 le2 fun p hp q hq =>
      h p (hmem1 p (List.mem_mergeSort.mp hp)) q (hmem2 q (List.mem_mergeSort.mp hq))
termination_by l => l.length

/-- On a list of CSV messages whose timestamps are all valid, the source's
comparator coincides with sorting by the time value, so the inconsistent
`NaN` branch of `csvTsLEb` is never exercised. -/
theorem mergeSort_csvTsLEb_of_some (msgs : List CsvMessage)
    (hall : ∀ m ∈ msgs, m.timestamp ≠ none) :
    msgs.mergeSort csvTsLEb =
      msgs.mergeSort (keyLE fun m => m.timestamp.getD 0) := by
  apply mergeSort_congr
  intro a ha b hb
  cases hta : a.timestamp with
  | none => exact absurd hta (hall a ha)
  | some x =>
    cases htb : b.timestamp with
    | none => exact absurd htb (hall b hb)
    | some y => simp [csvTsLEb, keyLE, hta, htb]

/-! ## `dedupFirstSeen` lemmas -/

theorem mem_dedupFirstSeen_foldl {α : Type} [DecidableEq α] :
    ∀ (l acc : List α) (x : α),
      (x ∈ l.foldl (fun acc s => if s ∈ acc then acc else acc ++ [s]) acc) ↔
        x ∈ acc ∨ x ∈ l := by
  intro l
  induction l with
  | nil => simp
  | cons a t ih =>
    intro acc x
    simp only [List.foldl_cons]
    by_cases ha : a ∈ acc
    · rw [if_pos ha, ih]
      constructor
      · rintro (h | h)
        · exact Or.inl h
        · exact Or.inr (List.mem_cons_of_mem a h)
      · rintro (h | h)
        · exact Or.inl h
        · rcases List.mem_cons.mp h with rfl | h
          · exact Or.inl ha
          · exact Or.inr h
    · rw [if_neg ha, ih]
      simp only [List.mem_append, List.mem_singleton, List.mem_cons]
      tauto

theorem mem_dedupFirstSeen {α : Type} [DecidableEq α] (l : List α) (x : α) :
    x ∈ dedupFirstSeen l ↔ x ∈ l := by
  unfold dedupFirstSeen
  rw [mem_dedupFirstSeen_foldl]
  simp

theorem nodup_dedupFirstSeen_foldl {α : Type} [DecidableEq α] :
    ∀ (l acc : List α), acc.Nodup →
      (l.foldl (fun acc s => if s ∈ acc then acc else acc ++ [s]) acc).Nodup := by
  intro l
  induction l with
  | nil => intro acc h; simpa using h
  | cons a t ih =>
    intro acc hacc
    simp only [List.foldl_cons]
    by_cases ha : a ∈ acc
    · rw [if_pos ha]; exact ih acc hacc
    · rw [if_neg ha]
      refine ih _ ?_
      simpa [List.nodup_append] using ⟨hacc, ha⟩

theorem nodup_dedupFirstSeen {α : Type} [DecidableEq α] (l : List α) :
    (dedupFirstSeen l).Nodup :=
  nodup_dedupFirstSeen_foldl l [] List.nodup_nil

theorem dedupFirstSeen_singleton {α : Type} [DecidableEq α] (x : α) :
    dedupFirstSeen [x] = [x] := rfl

theorem length_dedupFirstSeen_eq_card {α : Type} [DecidableEq α] (l : List α) :
    (dedupFirstSeen l).length = l.toFinset.card := by
  have he : (dedupFirstSeen l).toFinset = l.toFinset := by
    ext x
    simp [List.mem_toFinset, mem_dedupFirstSeen]
  calc (dedupFirstSeen l).length = (dedupFirstSeen l).toFinset.card :=
        (List.toFinset_card_of_nodup (nodup_dedupFirstSeen l)).symm
    _ = l.toFinset.card := by rw [he]

/-! ## Counting lemmas for `analyzeResponseTiming` -/

theorem sum_map_ite_count {α : Type} [DecidableEq α] (a : α) (sl : List α) :
    (sl.map fun s => if a = s then (1 : Nat) else 0).sum = sl.count a := by
  induction sl with
  | nil => simp
  | cons b t ih =>
    by_cases h : a = b
    · subst h
      simp [List.count_cons, ih]
      omega
    · simp only [List.map_cons, List.sum_cons, if_neg h, List.count_cons, ih]
      have : (b == a) = false := by simp [Ne.symm h]
      rw [this]
      simp

theorem sum_map_add_nat {α : Type} (l : List α) (f g : α → Nat) :
    (l.map fun s => f s + g s).sum = (l.map f).sum + (l.map g).sum := by
  induction l with
  | nil => simp
  | cons b t ih =>
    simp only [List.map_cons, List.sum_cons, ih]
    omega

/-- Summing the per-sender event counts over a duplicate-free sender list
that covers every event's sender yields the total event count. -/
theorem sum_countP_sender (senders : List String) (events : List ResponseEvent)
    (nd : senders.Nodup) (cover : ∀ e ∈ events, e.sender ∈ senders) :
    (senders.map fun s => events.countP fun e => e.sender = s).sum = events.length := by
  induction events with
  | nil =>
    have : (senders.map fun s => ([] : List ResponseEvent).countP fun e => e.sender = s) =
        senders.map fun _ => 0 := by
      apply List.map_congr_left
      intro s _
      simp
    rw [this]
    simp
  | cons e es ih =>
    have hcov' : ∀ x ∈ es, x.sender ∈ senders := fun x hx => cover x (List.mem_cons_of_mem e hx)
    have hmap : (senders.map fun s => (e :: es).countP fun x => x.sender = s) =
        senders.map fun s =>
          (es.countP fun x => x.sender = s) + if e.sender = s then 1 else 0 := by
      apply List.map_congr_left
      intro s _
      rw [List.countP_cons]
      simp
    rw [hmap, sum_map_add_nat, ih hcov', sum_map_ite_count e.sender senders,
      List.count_eq_one_of_mem nd (cover e (List.mem_cons_self e es))]
    simp

/-- The second component of a consecutive pair is a list member. -/
theorem snd_mem_of_mem_zip_tail {α : Type} {pc : α × α} {l : List α}
    (h : pc ∈ l.zip l.tail) : pc.2 ∈ l := by
  obtain ⟨a, b⟩ := pc
  exact List.mem_of_mem_tail (List.of_mem_zip h).2

/-- `rtEvent` produces an event exactly on a sender change with the minute
delta in `[0, 1440]`. -/
theorem isSome_rtEvent (previous current : Message) :
    (rtEvent previous current).isSome = true ↔
      (current.sender ≠ previous.sender ∧ 0 ≤ minutesBetween previous current ∧
        minutesBetween previous current ≤ 1440) := by
  unfold rtEvent
  by_cases h1 : current.sender ≠ previous.sender
  · rw [if_pos h1]
    dsimp only
    by_cases h2 : minutesBetween previous current ≤ 1440 ∧ 0 ≤ minutesBetween previous current
    · rw [if_pos h2]
      simp only [Option.isSome_some, true_iff]
      exact ⟨h1, h2.2, h2.1⟩
    · rw [if_neg h2]
      simp only [Option.isSome_none, Bool.false_eq_true, false_iff]
      intro hc
      exact h2 ⟨hc.2.2, hc.2.1⟩
  · rw [if_neg h1]
    simp only [Option.isSome_none, Bool.false_eq_true, false_iff]
    intro hc
    exact h1 hc.1

/-- The sender of every response event occurs in the message list. -/
theorem sender_mem_of_mem_responseEvents {msgs : List Message} {e : ResponseEvent}
    (he : e ∈ responseEvents msgs) : e.sender ∈ msgs.map (·.sender) := by
  obtain ⟨pc, hpc, hf⟩ := List.mem_filterMap.mp he
  have h2 : pc.2 ∈ msgs := snd_mem_of_mem_zip_tail hpc
  have hs : e.sender = pc.2.sender := by
    unfold rtEvent at hf
    by_cases h1 : pc.2.sender ≠ pc.1.sender
    · rw [if_pos h1] at hf
      dsimp only at hf
      by_cases hb : minutesBetween pc.1 pc.2 ≤ 1440 ∧ 0 ≤ minutesBetween pc.1 pc.2
      · rw [if_pos hb] at hf
        simp only [Option.some.injEq] at hf
        subst hf
        rfl
      · rw [if_neg hb] at hf
        exact absurd hf (by simp)
    · rw [if_neg h1] at hf
      exact absurd hf (by simp)
  rw [hs]
  exact List.mem_map_of_mem _ h2

theorem nodup_sortedSenders (msgs : List Message) : (sortedSenders msgs).Nodup :=
  (List.mergeSort_perm _ strLEb).symm.nodup (nodup_dedupFirstSeen _)

/-- `allResponses` is a permutation-assembly of the recorded events: its
length is the event count. -/
theorem length_allResponses (msgs : List Message) :
    (allResponses msgs).length = (responseEvents msgs).length := by
  unfold allResponses
  rw [List.length_mergeSort]
  show (List.flatten (List.map _ (sortedSenders msgs))).length = _
  rw [List.length_flatten, List.map_map]
  have hmap : (List.map (List.length ∘ fun s => (responseEvents msgs).filter (·.sender = s))
      (sortedSenders msgs)) =
      (sortedSenders msgs).map fun s => (responseEvents msgs).countP fun e => e.sender = s := by
    apply List.map_congr_left
    intro s _
    simp [Function.comp, List.countP_eq_length_filter]
  rw [hmap]
  apply sum_countP_sender _ _ (nodup_sortedSenders msgs)
  intro e he
  unfold sortedSenders
  rw [List.mem_mergeSort, mem_dedupFirstSeen]
  exact sender_mem_of_mem_responseEvents he

/-! ## Fold lemma for `initiationsOf` -/

/-- Running the initiation loop over consecutive pairs adds, per sender,
the number of threshold-exceeding pairs responded to by that sender. -/
theorem foldl_bump_count (pairs : List (Message × Message)) (f : String → Nat) (s : String) :
    (pairs.foldl
      (fun f pc =>
        if pc.2.timestamp - pc.1.timestamp ≥ CONVERSATION_GAP_MS then bump f pc.2.sender
        else f)
      f) s =
    f s + pairs.countP fun pc =>
      pc.2.timestamp - pc.1.timestamp ≥ CONVERSATION_GAP_MS ∧ pc.2.sender = s := by
  induction pairs generalizing f with
  | nil => simp
  | cons pc rest ih =>
    rw [List.foldl_cons, ih, List.countP_cons]
    by_cases hc : pc.2.timestamp - pc.1.timestamp ≥ CONVERSATION_GAP_MS
    · rw [if_pos hc]
      by_cases hx : pc.2.sender = s
      · have hb : bump f pc.2.sender s = f s + 1 := by
          unfold bump
          rw [if_pos hx.symm]
        rw [hb]
        have hd : (decide (pc.2.timestamp - pc.1.timestamp ≥ CONVERSATION_GAP_MS ∧
            pc.2.sender = s)) = true := by simp [hc, hx]
        simp only [hd, if_true]
        omega
      · have hb : bump f pc.2.sender s = f s := by
          unfold bump
          rw [if_neg (fun h => hx h.symm)]
        rw [hb]
        have hd : (decide (pc.2.timestamp - pc.1.timestamp ≥ CONVERSATION_GAP_MS ∧
            pc.2.sender = s)) = false := by simp [hx]
        simp [hd]
    · rw [if_neg hc]
      have hd : (decide (pc.2.timestamp - pc.1.timestamp ≥ CONVERSATION_GAP_MS ∧
          pc.2.sender = s)) = false := by simp [hc]
      simp [hd]

/-! ## Streak-walk refinement lemma -/

/-- The fold of `streakWalk` computes exactly the spec's run lengths, with
already-closed streaks prepended. -/
theorem foldl_streakStep_lengths (rest : List Int) :
    ∀ (streaks : List Streak) (len : Nat) (start prev : Int),
      ((let st := rest.foldl streakStep (streaks, len, start, prev)
        st.1 ++ [(⟨st.2.2.1, st.2.2.2, st.2.1⟩ : Streak)]).map (·.length)) =
      streaks.map (·.length) ++ specRunGo len prev rest := by
  induction rest with
  | nil =>
    intro streaks len start prev
    simp [specRunGo]
  | cons d ds ih =>
    intro streaks len start prev
    rw [List.foldl_cons]
    have hstep : streakStep (streaks, len, start, prev) d =
        if d - prev = 1 then (streaks, len + 1, start, d)
        else (streaks ++ [⟨start, prev, len⟩], 1, d, d) := rfl
    by_cases h : d - prev = 1
    · rw [hstep, if_pos h, ih streaks (len + 1) start d]
      simp only [specRunGo]
      rw [if_pos h]
    · rw [hstep, if_neg h,
        ih (streaks ++ [({ start := start, stop := prev, length := len } : Streak)]) 1 d d]
      simp only [specRunGo]
      rw [if_neg h]
      simp

/-- `streakWalk` refines the spec's run-length description. -/
theorem streakWalk_lengths (l : List Int) :
    (streakWalk l).map (·.length) = specRunLengths l := by
  cases l with
  | nil => rfl
  | cons d0 rest =>
    unfold streakWalk specRunLengths
    exact foldl_streakStep_lengths rest [] 1 d0 d0

/-! ## Fold lemmas for `mergeTelegramResults` -/

theorem foldl_mergeStep_messages (l : List TgResult) :
    ∀ acc : List TgMessage × List String × String,
      (l.foldl mergeStep acc).1 = acc.1 ++ l.flatMap (·.messages) := by
  induction l with
  | nil => intro acc; simp
  | cons r t ih =>
    intro acc
    rw [List.foldl_cons, ih]
    rw [show (mergeStep acc r).1 = acc.1 ++ r.messages from rfl]
    simp [List.flatMap_cons, List.append_assoc]

theorem foldl_mergeStep_participants (l : List TgResult) :
    ∀ (acc : List TgMessage × List String × String) (x : String),
      (x ∈ (l.foldl mergeStep acc).2.1 ↔
        x ∈ acc.2.1 ∨ ∃ r ∈ l, x ∈ r.metadata.participants) := by
  induction l with
  | nil => intro acc x; simp
  | cons r t ih =>
    intro acc x
    rw [List.foldl_cons, ih]
    rw [show (mergeStep acc r).2.1 =
      r.metadata.participants.foldl (fun a p => if p ∈ a then a else a ++ [p])
        acc.2.1 from rfl]
    rw [mem_dedupFirstSeen_foldl]
    simp only [List.mem_cons]
    constructor
    · rintro ((h | h) | ⟨r', hr', hx⟩)
      · exact Or.inl h
      · exact Or.inr ⟨r, Or.inl rfl, h⟩
      · exact Or.inr ⟨r', Or.inr hr', hx⟩
    · rintro (h | ⟨r', (rfl | hr'), hx⟩)
      · exact Or.inl (Or.inl h)
      · exact Or.inl (Or.inr hx)
      · exact Or.inr ⟨r', hr', hx⟩

theorem mergeStep_chatName (acc : List TgMessage × List String × String)
    (r : TgResult) :
    (mergeStep acc r).2.2 =
      if hasNonDefaultChatName r then (r.metadata.chatName).getD "Telegram Chat"
      else acc.2.2 := by
  cases hcn : r.metadata.chatName with
  | none => simp [mergeStep, hasNonDefaultChatName, hcn]
  | some c =>
    by_cases hc : c ≠ "" ∧ c ≠ "Telegram Chat"
    · simp [mergeStep, hasNonDefaultChatName, hcn, hc]
    · simp [mergeStep, hasNonDefaultChatName, hcn, hc]

theorem foldl_mergeStep_chatName (l : List TgResult) :
    ∀ acc : List TgMessage × List String × String,
      (l.foldl mergeStep acc).2.2 =
        match l.reverse.find? hasNonDefaultChatName with
        | some r => (r.metadata.chatName).getD "Telegram Chat"
        | none => acc.2.2 := by
  induction l with
  | nil => intro acc; rfl
  | cons r t ih =>
    intro acc
    rw [List.foldl_cons, ih]
    rw [List.reverse_cons, List.find?_append]
    cases hf : t.reverse.find? hasNonDefaultChatName with
    | some r' => simp [Option.or]
    | none =>
      simp only [Option.or]
      rw [mergeStep_chatName]
      cases hP : hasNonDefaultChatName r with
      | true => simp [List.find?, hP]
      | false => simp [List.find?, hP]

/-! ## Claims -/

/-- C1 (counterexample): the claim "the messages array of the ParsedResult
returned by each parser is sorted non-decreasing by timestamp" is false for
`parseTelegramExport` as stated: on a document without a `.history`
container the degraded fallback path returns the messages in document
order, here with strictly decreasing timestamps. -/
theorem c1_fallback_unsorted_counterexample :
    ¬ ((parseTelegramExport 0 tgFallbackDoc).messages.Pairwise
      fun a b => a.timestamp ≤ b.timestamp) := by
  intro h
  have hmsgs : (parseTelegramExport 0 tgFallbackDoc).messages =
      [⟨1754092800000, "A", "hi", none⟩, ⟨1754006400000, "B", "yo", none⟩] := by rfl
  rw [hmsgs] at h
  have := List.rel_of_pairwise_cons h (List.mem_singleton.mpr rfl)
  exact absurd this (by decide)

unseal List.merge List.mergeSort in
/-- C1 (amended): `parseWhatsApp` and the main path of `parseTelegramExport`
(history container present) return messages sorted non-decreasing by
timestamp, and the sort is stable: for every timestamp value the
subsequence of messages carrying it equals the corresponding subsequence of
the extraction order.  `parseCSV` gives the same guarantee whenever every
extracted row's timestamp parsed to a valid date; rows whose timestamp is
an invalid `Date` matching a fallback regex are pushed with `NaN` time
values, for which the comparator is inconsistent and sortedness is lost —
on `csvNaNMixContent` the returned valid timestamps are out of order.
(The degraded Telegram fallback path returns document order and is
exempted, per the counterexample.) -/
theorem c1_sorted_stable_amended :
    (∀ content r, parseWhatsApp content = .ok r →
      (r.messages.Pairwise fun a b => a.timestamp ≤ b.timestamp) ∧
        ∀ t, r.messages.filter (fun m => decide (m.timestamp = t)) =
          (waExtract content).filter fun m => decide (m.timestamp = t)) ∧
    (∀ content r msgs, parseCSV content = .ok r → csvExtract content = .ok msgs →
      (∀ m ∈ msgs, m.timestamp ≠ none) →
      (r.messages.Pairwise fun a b => a.timestamp.getD 0 ≤ b.timestamp.getD 0) ∧
        ∀ t, r.messages.filter (fun m => decide (m.timestamp = some t)) =
          msgs.filter fun m => decide (m.timestamp = some t)) ∧
    ((parseCSV csvNaNMixContent).map (fun r => r.messages.map (·.timestamp)) =
      .ok [none, some 1704103500000, none, some 1704103200000] ∧
      (1704103200000 : Int) < 1704103500000) ∧
    (∀ now doc children, doc.history = some children →
      ((parseTelegramExport now doc).messages.Pairwise
        fun a b => a.timestamp ≤ b.timestamp) ∧
        ∀ t, (parseTelegramExport now doc).messages.filter
            (fun m => decide (m.timestamp = t)) =
          (tgExtract now children).messages.filter fun m => decide (m.timestamp = t)) := by
  refine ⟨?wa, ?csv, ?nan, ?tg⟩
  case wa =>
    intro content r h
    unfold parseWhatsApp at h
    by_cases he : waExtract content = []
    · rw [if_pos he] at h
      exact absurd h (by simp)
    · rw [if_neg he] at h
      simp only [Except.ok.injEq] at h
      subst h
      constructor
      · rw [tsLEb_eq_keyLE]
        exact sorted_mergeSort_key Message.timestamp _
      · intro t
        rw [tsLEb_eq_keyLE]
        exact filter_mergeSort_key Message.timestamp _
          (fun a b ha hb => by
            simp only [decide_eq_true_eq] at ha hb
            rw [ha, hb]) _
  case csv =>
    intro content r msgs h hm hall
    unfold parseCSV at h
    rw [hm] at h
    dsimp only at h
    by_cases he : msgs = []
    · rw [if_pos he] at h
      exact absurd h (by simp)
    · rw [if_neg he] at h
      simp only [Except.ok.injEq] at h
      subst h
      have hcong := mergeSort_csvTsLEb_of_some msgs hall
      constructor
      · rw [hcong]
        exact sorted_mergeSort_key (fun m : CsvMessage => m.timestamp.getD 0) _
      · intro t
        rw [hcong]
        exact filter_mergeSort_key (fun m : CsvMessage => m.timestamp.getD 0) _
          (fun a b ha hb => by
            simp only [decide_eq_true_eq] at ha hb
            simp only [ha, hb]) _
  case nan =>
    exact ⟨by rfl, by decide⟩
  case tg =>
    intro now doc children hh
    have hr : parseTelegramExport now doc =
        let st := tgExtract now children
        let sorted := st.messages.mergeSort tgTsLEb
        { messages := sorted
          metadata :=
            { format := "telegram"
              totalMessages := sorted.length
              participants := st.participants
              chatName := some ((doc.headerText.map jsTrim).getD "Telegram Chat")
              dateRangeStart := (sorted.head?).map (·.timestamp)
              dateRangeEnd := (sorted.getLast?).map (·.timestamp) } } := by
      unfold parseTelegramExport
      rw [hh]
    rw [hr]
    constructor
    · rw [tgTsLEb_eq_keyLE]
      exact sorted_mergeSort_key TgMessage.timestamp _
    · intro t
      rw [tgTsLEb_eq_keyLE]
      exact filter_mergeSort_key TgMessage.timestamp _
        (fun a b ha hb => by
          simp only [decide_eq_true_eq] at ha hb
          rw [ha, hb]) _

unseal List.merge List.mergeSort in
/-- C1 (witness): the amended theorem applied to concrete inputs for all
three parsers (every timestamp of the CSV input parses to a valid date). -/
theorem c1_sorted_stable_witness :
    (parseWhatsApp waSampleContent = .ok waSampleResult ∧
      (waSampleResult.messages.Pairwise fun a b => a.timestamp ≤ b.timestamp) ∧
      waSampleResult.messages.filter (fun m => decide (m.timestamp = 1704103200000)) =
        (waExtract waSampleContent).filter fun m => decide (m.timestamp = 1704103200000)) ∧
    (parseCSV csvSampleContent = .ok csvSampleResult ∧
      (csvSampleResult.messages.Pairwise fun a b =>
        a.timestamp.getD 0 ≤ b.timestamp.getD 0)) ∧
    (tgSampleDoc.history = some tgSampleChildren ∧
      ((parseTelegramExport 0 tgSampleDoc).messages.Pairwise
        fun a b => a.timestamp ≤ b.timestamp)) := by
  have hwa : parseWhatsApp waSampleContent = .ok waSampleResult := by rfl
  have hcsv : parseCSV csvSampleContent = .ok csvSampleResult := by rfl
  have hcsvx : csvExtract csvSampleContent =
      .ok [⟨some 1704103500000, "Bob", "Yo"⟩,
        ⟨some 1704103200000, "Alice", "Hello"⟩] := by rfl
  have hwa' := c1_sorted_stable_amended.1 waSampleContent waSampleResult hwa
  have hcsv' := c1_sorted_stable_amended.2.1 csvSampleContent csvSampleResult _
    hcsv hcsvx (by decide)
  have htg' := c1_sorted_stable_amended.2.2.2 0 tgSampleDoc tgSampleChildren rfl
  exact ⟨⟨hwa, hwa'.1, hwa'.2 1704103200000⟩, ⟨hcsv, hcsv'.1⟩, ⟨rfl, htg'.1⟩⟩

unseal List.merge List.mergeSort in
/-- C3 (counterexample): the claim "each of the three parsers fails with a
zero-messages error rather than returning a ParsedResult with an empty
message list" is false for the Telegram parser: on a document whose format
is recognised (`isTelegramFormat` accepts the content) but which contains
zero message blocks, `parseTelegramExport` returns a result with an empty
messages array — its code has no zero-messages check at all. -/
theorem c3_telegram_empty_counterexample :
    isTelegramFormat tgEmptyContent = true ∧
    (parseTelegramExport 0 tgEmptyDoc).messages = [] ∧
    (parseTelegramExport 0 tgEmptyDoc).metadata.totalMessages = 0 := by
  exact ⟨by decide, rfl, rfl⟩

unseal List.merge List.mergeSort in
/-- C3 (amended): the WhatsApp and CSV parsers fail with their zero-messages
errors (distinct from the router's unsupported-format error) whenever
extraction pushes zero messages, and never return a result with an empty
message list; the Telegram parser instead always returns a `ParsedResult`,
which has an empty messages array when its history contains no parseable
message blocks.  The CSV zero-messages check counts PUSHED rows, not valid
ones: a row whose timestamp is an invalid `Date` matching a fallback regex
is pushed with a `NaN` time value, so a recognised CSV containing only such
rows returns a non-empty result instead of failing. -/
theorem c3_zero_messages_amended :
    (∀ content, waExtract content = [] →
      parseWhatsApp content = .error waNoMessagesError) ∧
    (∀ content msgs, csvExtract content = .ok msgs → msgs = [] →
      parseCSV content = .error csvNoMessagesError) ∧
    (∀ content r, parseWhatsApp content = .ok r → r.messages ≠ []) ∧
    (∀ content r, parseCSV content = .ok r → r.messages ≠ []) ∧
    waNoMessagesError ≠ unsupportedFormatError ∧
    csvNoMessagesError ≠ unsupportedFormatError ∧
    (∀ now doc children, doc.history = some children →
      (tgExtract now children).messages = [] →
      (parseTelegramExport now doc).messages = [] ∧
      (parseTelegramExport now doc).metadata.totalMessages = 0) ∧
    (parseCSV csvNaNRowsContent = .ok csvNaNRowsResult ∧
      csvNaNRowsResult.messages ≠ [] ∧
      ∀ m ∈ csvNaNRowsResult.messages, m.timestamp = none) := by
  refine ⟨?wa, ?csv, ?waOk, ?csvOk, by decide, by decide, ?tg, ?nan⟩
  case nan =>
    exact ⟨by rfl, by decide, by decide⟩
  case wa =>
    intro content he
    unfold parseWhatsApp
    rw [if_pos he]
  case csv =>
    intro content msgs hm he
    unfold parseCSV
    rw [hm]
    dsimp only
    rw [if_pos he]
  case waOk =>
    intro content r h
    unfold parseWhatsApp at h
    by_cases he : waExtract content = []
    · rw [if_pos he] at h
      exact absurd h (by simp)
    · rw [if_neg he] at h
      simp only [Except.ok.injEq] at h
      subst h
      intro hemp
      apply he
      have hl := congrArg List.length hemp
      rw [List.length_mergeSort] at hl
      exact List.length_eq_zero.mp hl
  case csvOk =>
    intro content r h
    unfold parseCSV at h
    cases hce : csvExtract content with
    | error e => rw [hce] at h; exact absurd h (by simp)
    | ok msgs =>
      rw [hce] at h
      dsimp only at h
      by_cases he : msgs = []
      · rw [if_pos he] at h
        exact absurd h (by simp)
      · rw [if_neg he] at h
        simp only [Except.ok.injEq] at h
        subst h
        intro hemp
        apply he
        have hl := congrArg List.length hemp
        rw [List.length_mergeSort] at hl
        exact List.length_eq_zero.mp hl
  case tg =>
    intro now doc children hh hm
    have key : (parseTelegramExport now doc).messages = [] := by
      unfold parseTelegramExport
      rw [hh]
      dsimp only
      rw [hm, List.mergeSort_nil]
    refine ⟨key, ?_⟩
    unfold parseTelegramExport
    rw [hh]
    dsimp only
    rw [hm, List.mergeSort_nil]
    rfl

unseal List.merge List.mergeSort in
/-- C3 (witness): the amended theorem applied at concrete inputs — an empty
WhatsApp export, a CSV file with a header but no valid rows, a successful
WhatsApp parse, and the zero-message Telegram document. -/
theorem c3_zero_messages_witness :
    (waExtract "" = [] ∧ parseWhatsApp "" = .error waNoMessagesError) ∧
    (csvExtract csvNoRowsContent = .ok [] ∧
      parseCSV csvNoRowsContent = .error csvNoMessagesError) ∧
    (parseWhatsApp waSampleContent = .ok waSampleResult ∧ waSampleResult.messages ≠ []) ∧
    (tgEmptyDoc.history = some [] ∧ (tgExtract 0 []).messages = [] ∧
      (parseTelegramExport 0 tgEmptyDoc).messages = []) := by
  have h1 : waExtract "" = [] := by rfl
  have h2 : csvExtract csvNoRowsContent = .ok [] := by rfl
  have h3 : parseWhatsApp waSampleContent = .ok waSampleResult := by rfl
  exact ⟨⟨h1, c3_zero_messages_amended.1 "" h1⟩,
    ⟨h2, c3_zero_messages_amended.2.1 csvNoRowsContent [] h2 rfl⟩,
    ⟨h3, c3_zero_messages_amended.2.2.1 waSampleContent waSampleResult h3⟩,
    ⟨rfl, rfl, (c3_zero_messages_amended.2.2.2.2.2.2.1 0 tgEmptyDoc [] rfl rfl).1⟩⟩

/-- C2: every latency value recorded by `analyzeResponseTiming` lies in
`[0, 1440]` minutes; a consecutive pair with the same sender never
contributes a response event; and `totalResponses` counts exactly the
sender-change pairs whose minute delta lies in `[0, 1440]`. -/
theorem c2_response_timing_bounds (msgs : List Message) :
    (∀ e ∈ responseEvents msgs, 0 ≤ e.time ∧ e.time ≤ 1440) ∧
    (∀ previous current : Message, current.sender = previous.sender →
      rtEvent previous current = none) ∧
    (∀ st, (analyzeResponseTiming msgs).statistics = some st →
      st.totalResponses = (msgs.zip msgs.tail).countP fun pc =>
        pc.2.sender ≠ pc.1.sender ∧ 0 ≤ minutesBetween pc.1 pc.2 ∧
          minutesBetween pc.1 pc.2 ≤ 1440) := by
  refine ⟨?bounds, ?same, ?count⟩
  case bounds =>
    intro e he
    obtain ⟨pc, hpc, hf⟩ := List.mem_filterMap.mp he
    unfold rtEvent at hf
    by_cases h1 : pc.2.sender ≠ pc.1.sender
    · rw [if_pos h1] at hf
      dsimp only at hf
      by_cases hb : minutesBetween pc.1 pc.2 ≤ 1440 ∧ 0 ≤ minutesBetween pc.1 pc.2
      · rw [if_pos hb] at hf
        simp only [Option.some.injEq] at hf
        subst hf
        exact ⟨hb.2, hb.1⟩
      · rw [if_neg hb] at hf
        exact absurd hf (by simp)
    · rw [if_neg h1] at hf
      exact absurd hf (by simp)
  case same =>
    intro previous current h
    unfold rtEvent
    rw [if_neg (by simp [h])]
  case count =>
    intro st hst
    unfold analyzeResponseTiming at hst
    by_cases hlen : msgs.length < 2
    · rw [if_pos hlen] at hst
      exact absurd hst (by simp)
    · rw [if_neg hlen] at hst
      dsimp only at hst
      simp only [Option.some.injEq] at hst
      subst hst
      dsimp only
      rw [length_allResponses]
      unfold responseEvents
      rw [List.length_filterMap_eq_countP]
      apply List.countP_congr
      intro pc _
      simpa using isSome_rtEvent pc.1 pc.2

unseal List.merge List.mergeSort in
/-- C2 (witness): the theorem applied at concrete inputs — the latency
bound at a list with one genuine response, the same-sender exclusion at a
same-sender pair, and the `totalResponses` count at a two-message
same-sender list whose statistics are fully evaluated. -/
theorem c2_response_timing_witness :
    ((⟨"Bob", 5, 300000⟩ : ResponseEvent) ∈ responseEvents c2SampleMsgs ∧
      0 ≤ (⟨"Bob", 5, 300000⟩ : ResponseEvent).time ∧
      (⟨"Bob", 5, 300000⟩ : ResponseEvent).time ≤ 1440) ∧
    rtEvent ⟨300000, "Bob", "b"⟩ ⟨600000, "Bob", "c"⟩ = none ∧
    ((analyzeResponseTiming c2bSampleMsgs).statistics = some c2bSampleStats ∧
      c2bSampleStats.totalResponses = (c2bSampleMsgs.zip c2bSampleMsgs.tail).countP fun pc =>
        pc.2.sender ≠ pc.1.sender ∧ 0 ≤ minutesBetween pc.1 pc.2 ∧
          minutesBetween pc.1 pc.2 ≤ 1440) := by
  have hev : responseEvents c2SampleMsgs = [⟨"Bob", 5, 300000⟩] := by
    simp only [responseEvents, c2SampleMsgs, rtEvent, minutesBetween]
    norm_num [List.filterMap_cons]
    decide
  have hm : (⟨"Bob", 5, 300000⟩ : ResponseEvent) ∈ responseEvents c2SampleMsgs := by
    rw [hev]
    exact List.mem_singleton.mpr rfl
  have hb := (c2_response_timing_bounds c2SampleMsgs).1 _ hm
  have hall : allResponses c2bSampleMsgs = [] := by decide
  have hper : rtPeriods c2bSampleMsgs = [] := by decide
  have hsend : sortedSenders c2bSampleMsgs = ["Alice"] := by decide
  have hev0 : responseEvents c2bSampleMsgs = [] := by decide
  have hs : (analyzeResponseTiming c2bSampleMsgs).statistics = some c2bSampleStats := by
    unfold analyzeResponseTiming
    rw [if_neg (by decide : ¬ c2bSampleMsgs.length < 2)]
    dsimp only
    rw [hall, hper, hsend, hev0]
    simp only [c2bSampleStats, Option.some.injEq, RTStatistics.mk.injEq]
    norm_num [jsRound]
  exact ⟨⟨hm, hb.1, hb.2⟩,
    (c2_response_timing_bounds c2SampleMsgs).2.1 ⟨300000, "Bob", "b"⟩ ⟨600000, "Bob", "c"⟩ rfl,
    hs, (c2_response_timing_bounds c2bSampleMsgs).2.2 c2bSampleStats hs⟩

unseal List.merge List.mergeSort in
/-- C6: a message is counted as an initiation by `analyzeInitiationBalance`
iff it is the very first message overall or the gap from the immediately
previous message is at least 4 hours; and on the concrete input (t=0 from
A, t=1h from B, t=10h from A) the counts are A=2, B=0. -/
theorem c6_initiation_balance :
    (∀ (msgs : List Message) (m0 : Message) (rest : List Message) (s : String),
      msgs = m0 :: rest →
      initiationsOf msgs s = (if m0.sender = s then 1 else 0) +
        (msgs.zip msgs.tail).countP fun pc =>
          pc.2.timestamp - pc.1.timestamp ≥ CONVERSATION_GAP_MS ∧ pc.2.sender = s) ∧
    ((analyzeInitiationBalance c6Msgs).labels = ["A", "B"] ∧
      (analyzeInitiationBalance c6Msgs).data = [2, 0] ∧
      (analyzeInitiationBalance c6Msgs).statistics.map (·.counts) =
        some [("A", 2), ("B", 0)]) := by
  constructor
  · intro msgs m0 rest s hmsgs
    subst hmsgs
    simp only [initiationsOf]
    rw [foldl_bump_count]
    congr 1
    unfold bump
    by_cases hx : s = m0.sender
    · rw [if_pos hx, if_pos hx.symm]
    · rw [if_neg hx, if_neg (fun h => hx h.symm)]
  · refine ⟨?_, ?_, ?_⟩ <;> decide

/-- C6 (witness): the initiation characterisation applied to the concrete
example list and sender A. -/
theorem c6_initiation_balance_witness :
    c6Msgs = (⟨0, "A", "x"⟩ : Message) :: [⟨3600000, "B", "y"⟩, ⟨36000000, "A", "z"⟩] ∧
    initiationsOf c6Msgs "A" =
      (if (⟨0, "A", "x"⟩ : Message).sender = "A" then 1 else 0) +
        (c6Msgs.zip c6Msgs.tail).countP fun pc =>
          pc.2.timestamp - pc.1.timestamp ≥ CONVERSATION_GAP_MS ∧ pc.2.sender = "A" :=
  ⟨rfl, c6_initiation_balance.1 c6Msgs _ _ "A" rfl⟩

unseal List.merge List.mergeSort in
/-- C4 (counterexample): the claim that `analyzeStreaks` takes the
reference time as an explicit parameter, so that its result does not
depend on when it is invoked, is false: the source reads `new Date()`
(modelled by the `now` argument), and on a one-message list the
`currentStreak` field is 1 when invoked the same day and 0 ten days
later. -/
theorem c4_clock_dependence_counterexample :
    (analyzeStreaks c4Msgs c4Now1).currentStreak = 1 ∧
    (analyzeStreaks c4Msgs c4Now2).currentStreak = 0 ∧
    analyzeStreaks c4Msgs c4Now1 ≠ analyzeStreaks c4Msgs c4Now2 := by
  have h1 : (analyzeStreaks c4Msgs c4Now1).currentStreak = 1 := by decide
  have h2 : (analyzeStreaks c4Msgs c4Now2).currentStreak = 0 := by decide
  refine ⟨h1, h2, fun h => ?_⟩
  have hc := congrArg StreaksResult.currentStreak h
  rw [h1, h2] at hc
  exact absurd hc (by decide)

/-- C4 (amended): every analyzer result in the embedding is a deterministic
function of its inputs; `analyzeStreaks`, however, reads the global clock
(`new Date()`, modelled as the `now` argument), and exactly its
`currentStreak` and `isStreakActive` fields depend on that reading — all
other fields depend only on the message array. -/
theorem c4_streaks_now_dependence_amended (msgs : List Message) (now₁ now₂ : Int) :
    (analyzeStreaks msgs now₁).longestStreak = (analyzeStreaks msgs now₂).longestStreak ∧
    (analyzeStreaks msgs now₁).longestStreakInfo =
      (analyzeStreaks msgs now₂).longestStreakInfo ∧
    (analyzeStreaks msgs now₁).totalActiveDays = (analyzeStreaks msgs now₂).totalActiveDays ∧
    (analyzeStreaks msgs now₁).totalSpanDays = (analyzeStreaks msgs now₂).totalSpanDays ∧
    (analyzeStreaks msgs now₁).activeDayPercent =
      (analyzeStreaks msgs now₂).activeDayPercent ∧
    (analyzeStreaks msgs now₁).avgGapDays = (analyzeStreaks msgs now₂).avgGapDays ∧
    (analyzeStreaks msgs now₁).streakHistory = (analyzeStreaks msgs now₂).streakHistory := by
  unfold analyzeStreaks
  by_cases h : msgs.isEmpty
  · simp [h]
  · simp only [h, Bool.false_eq_true, if_false]
    refine ⟨?_, ?_, ?_, ?_, ?_, ?_, ?_⟩ <;> (split <;> rfl)

unseal List.merge List.mergeSort in
/-- C7: `analyzeStreaks` collapses messages to the unique active calendar
dates and walks them computing consecutive-day runs — a gap of exactly one
day extends the run, any other gap closes it (`specRunLengths` is that
walk, stated in the spec's words) — with `totalActiveDays` the number of
unique dates and `longestStreak` the maximum run length; on the dates
{2024-01-01, -02, -03, -10} it returns longestStreak 3 and
totalActiveDays 4. -/
theorem c7_streaks_runs :
    (∀ l : List Int, (streakWalk l).map (·.length) = specRunLengths l) ∧
    (∀ (msgs : List Message) (now : Int), msgs ≠ [] →
      (analyzeStreaks msgs now).totalActiveDays =
        (msgs.map fun m => dayOfTs m.timestamp).toFinset.card ∧
      (analyzeStreaks msgs now).longestStreak =
        listMaxNat (specRunLengths
          ((dedupFirstSeen (msgs.map fun m => dayOfTs m.timestamp)).mergeSort intLEb))) ∧
    ((analyzeStreaks c7Msgs 0).longestStreak = 3 ∧
      (analyzeStreaks c7Msgs 0).totalActiveDays = 4) := by
  refine ⟨streakWalk_lengths, ?gen, by decide, by decide⟩
  case gen =>
    intro msgs now hne
    obtain ⟨m0, rest, rfl⟩ : ∃ m0 rest, msgs = m0 :: rest := by
      cases msgs with
      | nil => exact absurd rfl hne
      | cons a t => exact ⟨a, t, rfl⟩
    have hempty : (m0 :: rest).isEmpty = false := rfl
    have hmem : dayOfTs m0.timestamp ∈
        (dedupFirstSeen ((m0 :: rest).map fun m => dayOfTs m.timestamp)).mergeSort intLEb := by
      rw [List.mem_mergeSort, mem_dedupFirstSeen]
      exact List.mem_map_of_mem _ (List.mem_cons_self m0 rest)
    have hDne : ((dedupFirstSeen ((m0 :: rest).map fun m =>
        dayOfTs m.timestamp)).mergeSort intLEb).isEmpty = false := by
      rw [Bool.eq_false_iff]
      intro h
      rw [List.isEmpty_iff] at h
      rw [h] at hmem
      exact absurd hmem (List.not_mem_nil _)
    unfold analyzeStreaks
    simp only [hempty, Bool.false_eq_true, if_false, hDne]
    constructor
    · rw [List.length_mergeSort, length_dedupFirstSeen_eq_card]
    · rw [streakWalk_lengths]

/-- C7 (witness): the general characterisation applied to the concrete
example messages. -/
theorem c7_streaks_runs_witness :
    c7Msgs ≠ [] ∧
    (analyzeStreaks c7Msgs 0).totalActiveDays =
      (c7Msgs.map fun m => dayOfTs m.timestamp).toFinset.card ∧
    (analyzeStreaks c7Msgs 0).longestStreak =
      listMaxNat (specRunLengths
        ((dedupFirstSeen (c7Msgs.map fun m => dayOfTs m.timestamp)).mergeSort intLEb)) := by
  have h : c7Msgs ≠ [] := by simp [c7Msgs]
  exact ⟨h, (c7_streaks_runs.2.1 c7Msgs 0 h).1, (c7_streaks_runs.2.1 c7Msgs 0 h).2⟩

unseal List.merge List.mergeSort in
/-- C8 (code bug): the claim that no analyzer result field is NaN because
every division is guarded fails — `analyzeMessageActivity` divides
`firstHalfTotal / firstHalf.length` without a zero check, so on any input
whose whole span falls into a single time bin (here one message)
`statistics.firstHalfAvg` is `0/0 = NaN` (modelled as `none`); likewise
`analyzeInitiationBalance` on single-participant input produces
`difference = Math.abs(p₀ - undefined) = NaN`. -/
theorem c8_unguarded_division_nan :
    (analyzeMessageActivity c8Msgs).statistics.map (fun st => st.firstHalfAvg) =
      some none ∧
    (analyzeInitiationBalance c2bSampleMsgs).statistics.map (fun st => st.difference) =
      some none := by
  constructor
  · unfold analyzeMessageActivity
    rw [show c8Msgs.isEmpty = false from rfl]
    simp only [Bool.false_eq_true, if_false]
    norm_num [c8Msgs, dedupFirstSeen_singleton]
  · decide

/-- C5: in `parseWhatsApp`, a non-empty trimmed line that matches none of
the three date-line patterns, while a current message exists, is appended
with a newline separator to the text of that message — strictly increasing
its text length — and creates no new Message entry. -/
theorem c5_continuation_line (st : WAState) (m : Message) (line : String)
    (hm : st.current = some m)
    (hne : jsTrim line ≠ "")
    (hmatch : matchLine (jsTrim line).data = none) :
    (waStep st line).messages = st.messages ∧
    (waStep st line).current =
      some { m with text := m.text ++ "\n" ++ jsTrim line } ∧
    m.text.length < (m.text ++ "\n" ++ jsTrim line).length := by
  unfold waStep
  dsimp only
  rw [if_neg hne, hmatch, hm]
  refine ⟨rfl, rfl, ?_⟩
  simp only [String.length_append]
  have : (("\n" : String)).length = 1 := rfl
  omega

theorem c5_continuation_line_witness :
    (waStep ⟨[], some ⟨0, "Alice", "hi"⟩⟩ "hello world").messages = [] ∧
    (waStep ⟨[], some ⟨0, "Alice", "hi"⟩⟩ "hello world").current =
      some ⟨0, "Alice", "hi" ++ "\n" ++ jsTrim "hello world"⟩ ∧
    ("hi" : String).length < ("hi" ++ "\n" ++ jsTrim "hello world").length :=
  c5_continuation_line ⟨[], some ⟨0, "Alice", "hi"⟩⟩ ⟨0, "Alice", "hi"⟩
    "hello world" rfl (by decide) rfl

unseal List.merge List.mergeSort in
/-- C9 counterexample: with two files whose chat names are "Alpha" then
"Beta", `mergeTelegramResults` returns chat name "Beta" — the LAST
non-default name encountered — while the claim says the merged chat name is
the FIRST non-default name encountered ("Alpha"). -/
theorem c9_chatname_counterexample :
    (mergeTelegramResults [c9ResA, c9ResB]).metadata.chatName = some "Beta" ∧
    firstNonDefaultChatName [c9ResA, c9ResB] = "Alpha" ∧
    ("Beta" : String) ≠ "Alpha" :=
  ⟨rfl, rfl, by decide⟩

/-- C9 (amended): the merged message multiset and participant set are
independent of the order in which the per-file results are supplied, but the
merged chat name is the LAST non-default chat name encountered in the
supplied order, not the first. -/
theorem c9_merge_order_amended (l1 l2 : List TgResult)
    (hperm : List.Perm l1 l2) :
    List.Perm (mergeTelegramResults l1).messages
      (mergeTelegramResults l2).messages ∧
    (mergeTelegramResults l1).metadata.participants.toFinset =
      (mergeTelegramResults l2).metadata.participants.toFinset ∧
    (mergeTelegramResults l1).metadata.chatName =
      some (lastNonDefaultChatName l1) := by
  refine ⟨?_, ?_, ?_⟩
  · have h1 : (mergeTelegramResults l1).messages =
        (l1.flatMap (·.messages)).mergeSort tgTsLEb := by
      unfold mergeTelegramResults
      dsimp only
      rw [foldl_mergeStep_messages]
      rfl
    have h2 : (mergeTelegramResults l2).messages =
        (l2.flatMap (·.messages)).mergeSort tgTsLEb := by
      unfold mergeTelegramResults
      dsimp only
      rw [foldl_mergeStep_messages]
      rfl
    rw [h1, h2]
    exact ((List.mergeSort_perm _ _).trans (hperm.flatMap_right _)).trans
      (List.mergeSort_perm _ _).symm
  · have h1 : (mergeTelegramResults l1).metadata.participants =
        (l1.foldl mergeStep ([], [], "Telegram Chat")).2.1 := rfl
    have h2 : (mergeTelegramResults l2).metadata.participants =
        (l2.foldl mergeStep ([], [], "Telegram Chat")).2.1 := rfl
    ext x
    simp only [List.mem_toFinset, h1, h2, foldl_mergeStep_participants,
      List.not_mem_nil, false_or]
    constructor
    · rintro ⟨r, hr, hx⟩
      exact ⟨r, hperm.mem_iff.mp hr, hx⟩
    · rintro ⟨r, hr, hx⟩
      exact ⟨r, hperm.mem_iff.mpr hr, hx⟩
  · have h1 : (mergeTelegramResults l1).metadata.chatName =
        some (l1.foldl mergeStep ([], [], "Telegram Chat")).2.2 := rfl
    rw [h1, foldl_mergeStep_chatName]
    unfold lastNonDefaultChatName
    cases hf : l1.reverse.find? hasNonDefaultChatName with
    | some r => simp
    | none => simp

unseal List.merge List.mergeSort in
theorem c9_merge_order_witness :
    List.Perm [c9ResA, c9ResB] [c9ResB, c9ResA] ∧
    (List.Perm (mergeTelegramResults [c9ResA, c9ResB]).messages
      (mergeTelegramResults [c9ResB, c9ResA]).messages ∧
     (mergeTelegramResults [c9ResA, c9ResB]).metadata.participants.toFinset =
       (mergeTelegramResults [c9ResB, c9ResA]).metadata.participants.toFinset ∧
     (mergeTelegramResults [c9ResA, c9ResB]).metadata.chatName =
       some (lastNonDefaultChatName [c9ResA, c9ResB])) :=
  ⟨by decide, c9_merge_order_amended [c9ResA, c9ResB] [c9ResB, c9ResA]
    (by decide)⟩

/-- C10: undocumented minimum-input thresholds — for fewer than 5 messages
`analyzeConversationRhythm` returns rhythm "insufficient_data" with
confidence 0 and no details; for fewer than 10 messages
`analyzeLexicalDiversity` returns its empty-shaped result; for fewer than 2
messages `analyzeResponseTiming` and `analyzeInitiationBalance` return their
empty-shaped results. -/
theorem c10_minimum_input_thresholds (msgs : List Message) :
    (msgs.length < 5 →
      (analyzeConversationRhythm msgs).rhythm = "insufficient_data" ∧
      (analyzeConversationRhythm msgs).confidence = 0 ∧
      (analyzeConversationRhythm msgs).details = none) ∧
    (msgs.length < 10 → analyzeLexicalDiversity msgs = ⟨[], [], none⟩) ∧
    (msgs.length < 2 →
      analyzeResponseTiming msgs = ⟨[], [], none⟩ ∧
      analyzeInitiationBalance msgs = ⟨[], [], none⟩) := by
  refine ⟨fun h5 => ?_, fun h10 => ?_, fun h2 => ?_⟩
  · unfold analyzeConversationRhythm
    rw [if_pos h5]
    exact ⟨rfl, rfl, rfl⟩
  · unfold analyzeLexicalDiversity
    rw [if_pos h10]
  · constructor
    · unfold analyzeResponseTiming
      rw [if_pos h2]
    · unfold analyzeInitiationBalance
      rw [if_pos h2]

theorem c10_minimum_input_thresholds_witness :
    c10Msgs.length < 5 ∧
    ((analyzeConversationRhythm c10Msgs).rhythm = "insufficient_data" ∧
     (analyzeConversationRhythm c10Msgs).confidence = 0 ∧
     (analyzeConversationRhythm c10Msgs).details = none) ∧
    c10Msgs.length < 10 ∧
    analyzeLexicalDiversity c10Msgs = ⟨[], [], none⟩ ∧
    c10Msgs.length < 2 ∧
    (analyzeResponseTiming c10Msgs = ⟨[], [], none⟩ ∧
     analyzeInitiationBalance c10Msgs = ⟨[], [], none⟩) :=
  ⟨by decide, (c10_minimum_input_thresholds c10Msgs).1 (by decide),
   by decide, (c10_minimum_input_thresholds c10Msgs).2.1 (by decide),
   by decide, (c10_minimum_input_thresholds c10Msgs).2.2 (by decide)⟩

end MyChat
